import Mathlib

/-!
A shallow embedding of the VeNRA extraction / retrieval core
(`src/venra/ingestion.py`, `src/venra/synthesis.py`, `src/venra/retriever.py`,
`src/venra/assembler.py`) together with theorems settling the frozen claims
about it.

Modelling conventions:
* Python strings are Lean `String`s; character-level operations work on
  `s.data : List Char`.  Python's `str.strip`, `str.replace`, `str.split`,
  `in` (substring), `str.lower` are re-implemented faithfully for the ASCII
  fragment actually exercised by the pipeline.
* The concrete regular expressions appearing in the source
  (`^\|?\s*:?-+:?\s*\|`, `\|?\s*((?:&nbsp;|\s)*)([^|]+)`, `\s*\([\d\w]+\)`,
  `([0-9])[a-z]$`, `^(#+)\s+(.*)`, `20\d\d`) are deterministic on their
  input language and are modelled by dedicated scanners below.
* IEEE-754 doubles are idealised as exact decimal numbers (`PyFloat` over
  `Dec10`), with explicit `inf`/`nan` constructors for Python's non-finite
  literals; the claims under verification never depend on rounding.  The
  idealisation carries no signed zero: Python's `float("-0")` is `-0.0`
  while the model yields `0.0` (no claim distinguishes the two).
* `hashlib.md5(...).hexdigest()` is idealised as an injective stand-in
  (the identity on the seed string): equal seeds give equal ids, and the
  usual collision-freeness assumption makes distinct seeds give distinct
  ids.  All determinism/collision reasoning happens at the seed level.
-/

set_option maxRecDepth 8000

namespace Venra

/-! ### Python string primitives -/

/-- The whitespace characters stripped by Python's `str.strip()` (ASCII fragment). -/
def isPySpace (c : Char) : Bool :=
  c = ' ' || c = '\t' || c = '\n' || c = '\r' || c = '\x0b' || c = '\x0c'

def stripLeftChars (p : Char → Bool) (l : List Char) : List Char := l.dropWhile p

def stripRightChars (p : Char → Bool) (l : List Char) : List Char :=
  (l.reverse.dropWhile p).reverse

def stripCharsBy (p : Char → Bool) (l : List Char) : List Char :=
  stripRightChars p (stripLeftChars p l)

/-- Python `s.strip()`. -/
def pyStrip (s : String) : String := String.mk (stripCharsBy isPySpace s.data)

/-- Python `s.strip("|")`. -/
def stripPipes (s : String) : String := String.mk (stripCharsBy (· = '|') s.data)

/-- Python `s.lower()` (ASCII). -/
def lowerStr (s : String) : String := String.mk (s.data.map Char.toLower)

/-- `pat.isPrefixOf l` at some position of `l`: Python's `pat in s`. -/
def containsSubAux (p : List Char) : List Char → Bool
  | [] => p.isPrefixOf ([] : List Char)
  | c :: t => p.isPrefixOf (c :: t) || containsSubAux p t

/-- Python `pat in s` (substring containment). -/
def containsSub (s pat : String) : Bool := containsSubAux pat.data s.data

def splitCharAux (c : Char) : List Char → List Char → List (List Char)
  | [], acc => [acc.reverse]
  | x :: t, acc =>
    if x = c then acc.reverse :: splitCharAux c t [] else splitCharAux c t (x :: acc)

/-- Python `s.split(c)` for a single-character separator. -/
def splitChar (c : Char) (s : String) : List String :=
  (splitCharAux c s.data []).map String.mk

/-- Python `sep.join(parts)`. -/
def joinSep (sep : String) : List String → String
  | [] => ""
  | [x] => x
  | x :: y :: xs => x ++ sep ++ joinSep sep (y :: xs)

def replaceAux (pat repl : List Char) : Nat → List Char → List Char
  | 0, l => l
  | _ + 1, [] => []
  | fuel + 1, c :: t =>
    if pat.isPrefixOf (c :: t) then
      repl ++ replaceAux pat repl fuel ((c :: t).drop pat.length)
    else
      c :: replaceAux pat repl fuel t

/-- Python `s.replace(pat, repl)` (left-to-right, non-overlapping;
the source never calls it with an empty pattern). -/
def pyReplace (s pat repl : String) : String :=
  if pat.data.isEmpty then s
  else String.mk (replaceAux pat.data repl.data s.data.length s.data)

/-- Python truthiness of an optional string (`None` and `""` are falsy). -/
def pyTruthyStr : Option String → Bool
  | none => false
  | some s => !s.data.isEmpty

/-- Python truthiness of an optional list (`None` and `[]` are falsy). -/
def pyTruthyList : Option (List String) → Bool
  | none => false
  | some l => !l.isEmpty

/-! ### Regex scanners used by the pipeline -/

/-- A character of Python's `\w` (and `\d`) class, ASCII fragment. -/
def isWordChar (c : Char) : Bool :=
  ('a' ≤ c && c ≤ 'z') || ('A' ≤ c && c ≤ 'Z') || ('0' ≤ c && c ≤ '9') || c = '_'

def isAsciiDigit (c : Char) : Bool := '0' ≤ c && c ≤ '9'

/-- `re.match(r"^\|?\s*:?-+:?\s*\|", s)` as a Boolean: the markdown
separator-row test used by `TableMelter.melt`. -/
def sepRowMatch (s : String) : Bool :=
  let r := match s.data with
    | '|' :: t => t
    | l => l
  let r1 := r.dropWhile isPySpace
  let r2 := match r1 with
    | ':' :: t => t
    | l => l
  let d := r2.takeWhile (· = '-')
  if d.isEmpty then false
  else
    let r3 := r2.drop d.length
    let r4 := match r3 with
      | ':' :: t => t
      | l => l
    let r5 := r4.dropWhile isPySpace
    match r5 with
    | '|' :: _ => true
    | _ => false

/-- `re.sub(r"\s*\([\d\w]+\)", "", s)` — strip parenthesized alphanumeric
footnote markers (with any leading whitespace), leftmost-first. -/
def stripFootnotesAux : Nat → List Char → List Char
  | 0, l => l
  | _ + 1, [] => []
  | fuel + 1, c :: t =>
    let l := c :: t
    let ws := l.takeWhile isPySpace
    let r := l.drop ws.length
    match r with
    | '(' :: r1 =>
      let w := r1.takeWhile isWordChar
      match w, r1.drop w.length with
      | _ :: _, ')' :: r2 => stripFootnotesAux fuel r2
      | _, _ => c :: stripFootnotesAux fuel t
    | _ => c :: stripFootnotesAux fuel t

def stripFootnotes (s : String) : String :=
  String.mk (stripFootnotesAux s.data.length s.data)

/-- `re.sub(r"([0-9])[a-z]$", r"\1", s)` — drop a single trailing lowercase
letter glued to a digit. -/
def dropTrailingLetter (s : String) : String :=
  match s.data.reverse with
  | c :: d :: rest =>
    if ('a' ≤ c && c ≤ 'z') && isAsciiDigit d then String.mk ((d :: rest).reverse)
    else s
  | _ => s

/-- `re.search(r"20\d{2}", s)` as a Boolean: the period-column test. -/
def containsYear (s : String) : Bool :=
  let rec go : List Char → Bool
    | [] => false
    | l@(_ :: t) =>
      (match l with
       | '2' :: '0' :: c :: d :: _ => isAsciiDigit c && isAsciiDigit d
       | _ => false) || go t
  go s.data

/-- `re.match(r"^(#+)\s+(.*)", line)`, returning `(level, title.strip())`
as used by `StructuralParser.parse_pdf`. -/
def headerParse (line : String) : Option (Nat × String) :=
  let hashes := line.data.takeWhile (· = '#')
  if hashes.isEmpty then none
  else
    let r := line.data.drop hashes.length
    let ws := r.takeWhile isPySpace
    if ws.isEmpty then none
    else some (hashes.length, pyStrip (String.mk (r.drop ws.length)))

/-! ### Python floats, idealised as exact decimal numbers

Every float manufactured by the pipeline comes from a decimal literal (table
cells, oracle values) or from multiplication by a power-of-ten scale factor,
so finite values are idealised as exact decimals `num * 10 ^ exp` with the
mantissa kept free of trailing zero factors (canonical form, so structural
equality is value equality).  IEEE rounding is not modelled; the claims do
not depend on it. -/

def npow10 : Nat → Nat
  | 0 => 1
  | n + 1 => 10 * npow10 n

def ipow10 (n : Nat) : Int := (npow10 n : Int)

/-- An exact decimal `num * 10 ^ exp`, canonical
(`num = 0 → exp = 0`, otherwise `¬ 10 ∣ num`). -/
structure Dec10 where
  num : Int
  exp : Int
deriving DecidableEq, Repr

def canonAux : Nat → Int → Int → Dec10
  | 0, n, e => ⟨n, e⟩
  | fuel + 1, n, e => if n % 10 = 0 then canonAux fuel (n / 10) (e + 1) else ⟨n, e⟩

def Dec10.canon (n e : Int) : Dec10 :=
  if n = 0 then ⟨0, 0⟩ else canonAux n.natAbs n e

def Dec10.ofInt (n : Int) : Dec10 := Dec10.canon n 0

/-- `a * b` on exact decimals (re-canonicalised: `2 * 5` gains a ten). -/
def Dec10.mul (a b : Dec10) : Dec10 := Dec10.canon (a.num * b.num) (a.exp + b.exp)

def Dec10.neg (a : Dec10) : Dec10 := ⟨-a.num, a.exp⟩

/-- `a < b` on exact decimals, by comparison at a common exponent. -/
def Dec10.blt (a b : Dec10) : Bool :=
  let d := a.exp - b.exp
  if 0 ≤ d then a.num * ipow10 d.toNat < b.num
  else a.num < b.num * ipow10 (-d).toNat

/-- Idealisation of a Python `float`: exact decimal for finite values, plus
the non-finite literals `float("inf")`, `float("-inf")`, `float("nan")`. -/
inductive PyFloat where
  | val : Dec10 → PyFloat
  | inf : Bool → PyFloat   -- `true` = negative infinity
  | nan : PyFloat
deriving DecidableEq, Repr

/-- A Python `digitpart`: digits with single underscores strictly between
digits (`1_000` is legal, `_1`, `1_`, `1__0` are not).  Returns the digits. -/
def pyDigitPart (l : List Char) : Option (List Char × List Char) :=
  let raw := l.takeWhile (fun c => isAsciiDigit c || c = '_')
  let rest := l.drop raw.length
  let rec ok : List Char → Bool
    | [] => false
    | [c] => isAsciiDigit c
    | c :: d :: t => isAsciiDigit c && (if d = '_' then (match t with
        | e :: _ => isAsciiDigit e && ok t
        | [] => false) else ok (d :: t))
  if ok raw then some (raw.filter isAsciiDigit, rest) else none

def natOfDigits (l : List Char) : Nat :=
  l.foldl (fun n c => n * 10 + (c.toNat - '0'.toNat)) 0

/-- The number part of Python's float grammar:
`digitpart ["." [digitpart]] | "." digitpart`, then an optional exponent. -/
def pyFloatNumber (l : List Char) : Option Dec10 :=
  let (intDigits, rest) := match pyDigitPart l with
    | some (d, r) => (d, r)
    | none => (([] : List Char), l)
  let (fracDigits, rest2) := match rest with
    | '.' :: r =>
      match pyDigitPart r with
      | some (d, r2) => (d, r2)
      | none => (([] : List Char), r)
    | _ => (([] : List Char), rest)
  if intDigits.isEmpty && fracDigits.isEmpty then none
  else
    let expPart : Option (Int × List Char) := match rest2 with
      | c :: r =>
        if c = 'e' || c = 'E' then
          let sr : Int × List Char := match r with
            | '+' :: t => (1, t)
            | '-' :: t => (-1, t)
            | t => (1, t)
          match pyDigitPart sr.2 with
          | some (d, r2) => some (sr.1 * (natOfDigits d : Int), r2)
          | none => none
        else some (0, rest2)
      | [] => some (0, rest2)
    match expPart with
    | none => none
    | some (e, rest3) =>
      if !rest3.isEmpty then none
      else
        some (Dec10.canon (natOfDigits (intDigits ++ fracDigits) : Int)
          (e - (fracDigits.length : Int)))

/-- Python `float(s)`: strip whitespace, optional sign, then either
`inf`/`infinity`/`nan` (case-insensitive) or a decimal number.
Returns `none` where Python raises `ValueError`. -/
def pyFloatOfString (s : String) : Option PyFloat :=
  let l := stripCharsBy isPySpace s.data
  let (neg, r) := match l with
    | '+' :: t => (false, t)
    | '-' :: t => (true, t)
    | t => (false, t)
  let low := String.mk (r.map Char.toLower)
  if low = "inf" || low = "infinity" then some (.inf neg)
  else if low = "nan" then some .nan
  else match pyFloatNumber r with
    | some q => some (.val (if neg then q.neg else q))
    | none => none

/-- Multiplication by a (positive) scale factor, on the float idealisation. -/
def PyFloat.mulScale (scale : Dec10) : PyFloat → PyFloat
  | .val q => .val (q.mul scale)
  | .inf b => .inf b
  | .nan => .nan

/-- Decimal digit characters of `n` (most significant first). -/
def natDigits (fuel n : Nat) : List Char :=
  match fuel with
  | 0 => []
  | fuel + 1 =>
    if n < 10 then [Char.ofNat (n + '0'.toNat)]
    else natDigits fuel (n / 10) ++ [Char.ofNat (n % 10 + '0'.toNat)]

def natToStr (n : Nat) : String := String.mk (natDigits (n + 1) n)

/-- Model of Python `str(x)` on a float: the canonical decimal expansion,
with a trailing `.0` for integral values — `str(500000000.0) =
"500000000.0"`, `str(5.25) = "5.25"`.  (Python's switch to exponent
notation at 1e16 and shortest-round-trip repr of long mantissas are not
modelled; the pipeline only stringifies short decimal values.) -/
def pyFloatRepr : PyFloat → String
  | .nan => "nan"
  | .inf b => if b then "-inf" else "inf"
  | .val q =>
    let sign := if q.num < 0 then "-" else ""
    let m := q.num.natAbs
    if 0 ≤ q.exp then sign ++ natToStr (m * npow10 q.exp.toNat) ++ ".0"
    else
      let k := (-q.exp).toNat
      let ds := natDigits (m + 1) m
      let padded := List.replicate (k + 1 - min (k + 1) ds.length) '0' ++ ds
      let ip := padded.take (padded.length - k)
      let fp := padded.drop (padded.length - k)
      sign ++ String.mk ip ++ "." ++ String.mk fp

/-- `f"{v}"` for an optional float: Python renders `None` as `"None"`. -/
def pyValStr : Option PyFloat → String
  | none => "None"
  | some v => pyFloatRepr v

/-! ### Data model (`venra/models.py`)

`metric_embedding_id`, `source_bbox` and the wall-clock `timestamp` field are
omitted: none of them enters the hashing, melting or retrieval logic. -/

inductive BlockType where
  | text
  | table
  | header
deriving DecidableEq, Repr

structure DocBlock where
  id : String
  blockType : BlockType
  sectionPath : List String
  pageNum : Option Int := none
  content : String
deriving DecidableEq, Repr

structure UFLRow where
  row_id : String
  entity_id : String
  entity_name_raw : String
  metric_name : String
  related_entity_id : Option String := none
  value : Option PyFloat
  unit : String
  scale_factor : Dec10
  period : String
  doc_section : String
  source_chunk_id : String
  nuance_note : Option String
  confidence : Dec10
deriving DecidableEq, Repr

/-- `settings.CONFIDENCE_TABLE = 0.95` (`venra/config.py`). -/
def CONFIDENCE_TABLE : Dec10 := Dec10.canon 95 (-2)

/-- `settings.CONFIDENCE_TEXT_LOW = 0.60` (`venra/config.py`). -/
def CONFIDENCE_TEXT_LOW : Dec10 := Dec10.canon 60 (-2)

/-- Idealisation of `hashlib.md5(seed.encode()).hexdigest()`: an injective
stand-in (the identity), so that equality of row ids is exactly equality of
the underscore-delimited seed strings.  (Real MD5 is a fixed function with
the usual collision-freeness idealisation; all of the determinism and
collision structure of `row_id` lives in the seed construction.) -/
def md5Hex (s : String) : String := s

/-- The f-string seed `f"{entity_id}_{metric}_{period}_{block_id}_{value}"`
shared by `TableMelter.melt` and `TextSynthesizer.extract_facts`. -/
def rowIdSeed (entityId metric period blockId valStr : String) : String :=
  entityId ++ "_" ++ metric ++ "_" ++ period ++ "_" ++ blockId ++ "_" ++ valStr

/-! ### `TableMelter._parse_numeric` -/

def dashStrings : List String := ["—", "-", "–"]

/-- The preamble of `_parse_numeric`:
`s = val_str.strip().replace("&nbsp;", " ")` then `s = s.strip()`. -/
def cleanCell (valStr : String) : String :=
  pyStrip (pyReplace (pyStrip valStr) "&nbsp;" " ")

/-- `s.startswith("(") and s.endswith(")")`. -/
def parenWrapped (s : String) : Bool :=
  (s.data.head? == some '(') && (s.data.getLast? == some ')')

/-- The tail of `_parse_numeric` after footnote stripping
(`synthesis.py:233-248`). -/
def parseNumericTail (negParens : Bool) (s2 : String) : Option PyFloat × Option String :=
  let s3 := dropTrailingLetter s2
  let s4 := pyStrip (pyReplace (pyReplace s3 "," "") "$" "")
  if s4 = "" || lowerStr s4 = "n/a" || lowerStr s4 = "nan" then (none, none)
  else
    let s5 := if negParens then "-" ++ s4 else s4
    let nuance := if negParens then some "Negative (parentheses)" else none
    match pyFloatOfString s5 with
    | some v => (some v, nuance)
    | none => (none, none)

/-- `_parse_numeric` on an already-cleaned cell string
(`synthesis.py:223-248`). -/
def parseNumericCore (s : String) : Option PyFloat × Option String :=
  if dashStrings.contains s then (some (.val (Dec10.ofInt 0)), some "Dash treated as zero")
  else
    let negParens := parenWrapped s
    let s1 := if negParens then String.mk (s.data.drop 1 |>.dropLast) else s
    parseNumericTail negParens (stripFootnotes s1)

/-- `TableMelter._parse_numeric` (`synthesis.py:220-248`). -/
def parseNumeric (valStr : String) : Option PyFloat × Option String :=
  parseNumericCore (cleanCell valStr)

/-! ### `TableMelter._detect_scale` -/

def firstLine (s : String) : String := (splitChar '\n' s).headD ""

/-- `" ".join(block.section_path).lower() + " " + block.content.split("\n")[0].lower()`. -/
def scaleContext (b : DocBlock) : String :=
  lowerStr (joinSep " " b.sectionPath) ++ " " ++ lowerStr (firstLine b.content)

/-- `TableMelter._detect_scale` (`synthesis.py:209-215`). -/
def detectScale (b : DocBlock) : Dec10 :=
  if containsSub (scaleContext b) "millions" then Dec10.ofInt 1000000
  else if containsSub (scaleContext b) "thousands" || containsSub (scaleContext b) "000s" then
    Dec10.ofInt 1000
  else Dec10.ofInt 1

/-! ### Hierarchy flattening (`TableMelter.melt`, step 1) -/

/-- The alternation `(?:&nbsp;|\s)*`, matched greedily: at each position the
literal `&nbsp;` (first alternative) or a single whitespace character.  The
two alternatives are disjoint (`&` is not whitespace), so the greedy match is
deterministic.  Returns the list of matched units and the remainder. -/
def munchIndentAux : Nat → List Char → List (List Char) × List Char
  | 0, l => ([], l)
  | fuel + 1, l =>
    if ("&nbsp;".data).isPrefixOf l then
      let p := munchIndentAux fuel (l.drop 6)
      ("&nbsp;".data :: p.1, p.2)
    else
      match l with
      | c :: t =>
        if isPySpace c then
          let p := munchIndentAux fuel t
          ([c] :: p.1, p.2)
        else ([], l)
      | [] => ([], [])

/-- `re.match(r"\|?\s*((?:&nbsp;|\s)*)([^|]+)", line)`: returns
`(group 1, group 2)` on success.  The greedy engine backtracks at most one
unit of group 1 (or one character of the outer `\s*`) when `[^|]+` would
otherwise start at a `|` or at the end of the line; both alternatives of the
group and the surrounding pieces are otherwise disjoint, so matching is
deterministic. -/
def indentMatch (l : List Char) : Option (List Char × List Char) :=
  let r := match l with
    | '|' :: t => t
    | t => t
  let w := r.takeWhile isPySpace
  let r1 := r.drop w.length
  let p := munchIndentAux r1.length r1
  let units := p.1
  let r2 := p.2
  let backtrack : Option (List Char × List Char) :=
    match units.getLast? with
    | some u => some (units.dropLast.flatten, u ++ r2.takeWhile (· ≠ '|'))
    | none =>
      match w.getLast? with
      | some c => some ([], [c])
      | none => none
  match r2 with
  | c :: _ => if c ≠ '|' then some (units.flatten, r2.takeWhile (· ≠ '|')) else backtrack
  | [] => backtrack

def hierKeywords : List String := ["item", "value", "metric"]

/-- One line of the hierarchical-disambiguation pass of `TableMelter.melt`
(`synthesis.py:83-125`): given the current parent stack, returns the updated
stack and the (possibly rewritten) line. -/
def hierLine (stack : List String) (line : String) : List String × String :=
  if pyStrip line = "" || sepRowMatch (pyStrip line) then (stack, line)
  else
    match indentMatch line.data with
    | none => (stack, line)
    | some (indent, g2) =>
      let metricText := pyStrip (String.mk g2)
      if metricText = "" || hierKeywords.contains (lowerStr metricText) then (stack, line)
      else
        let normalized := pyReplace (String.mk indent) "&nbsp;" "  "
        let depth := normalized.data.length / 2
        let stack' := stack.take depth
        let fullName := if stack'.isEmpty then metricText else joinSep " > " (stack' ++ [metricText])
        let inner := stripPipes (pyStrip line)
        let parts := (splitChar '|' inner).map pyStrip
        let isParent := decide (parts.length > 1) && (parts.drop 1).all (· = "")
        let stack'' := if isParent || parts.length == 1 then stack' ++ [metricText] else stack'
        let newLine := "| " ++ joinSep " | " (parts.set 0 fullName) ++ " |"
        (stack'', newLine)

def hierarchyPass (lines : List String) : List String :=
  (lines.foldl
    (fun st l =>
      let p := hierLine st.1 l
      (p.1, st.2 ++ [p.2]))
    (([], []) : List String × List String)).2

/-! ### The `pd.read_csv(..., sep=r"\s*\|\s*", engine="python")` model

The separator is a regex with exactly one literal `|`, so splitting a line on
it is: split on `|`, then strip the whitespace adjacent to each separator
(i.e. left-strip every field but the first, right-strip every field but the
last).  Pandas maps fields matching its default NA tokens to `NaN`
(stringified later as `"nan"`), names NA header fields `Unnamed: i`,
NaN-fills missing trailing fields, and raises on rows with more fields than
the header (caught by `melt`, which returns `[]`).  Numeric dtype inference
(which can stringify `"500"` back as `"500.0"`) is not modelled: it never
changes the parsed value, the nuance, or the row id. -/

def splitPipeWS (s : String) : List String :=
  let fs := splitChar '|' s
  let n := fs.length
  fs.enum.map (fun p =>
    let d := p.2.data
    let d1 := if p.1 = 0 then d else d.dropWhile isPySpace
    let d2 := if p.1 = n - 1 then d1 else (d1.reverse.dropWhile isPySpace).reverse
    String.mk d2)

/-- Pandas' default `na_values` tokens. -/
def naTokens : List String :=
  ["", "#N/A", "#N/A N/A", "#NA", "-1.#IND", "-1.#QNAN", "-NaN", "-nan",
   "1.#IND", "1.#QNAN", "<NA>", "N/A", "NA", "NULL", "NaN", "None", "n/a", "nan", "null"]

def readTable (csvLines : List String) : Option (List String × List (List String)) :=
  let ls := csvLines.filter (fun l => l ≠ "")
  match ls with
  | [] => none
  | h :: rest =>
    let cols := (splitPipeWS h).enum.map
      (fun p => if naTokens.contains p.2 then "Unnamed: " ++ natToStr p.1 else p.2)
    let n := cols.length
    let rows := rest.map (fun l => (splitPipeWS l).map (fun f => if naTokens.contains f then "nan" else f))
    if rows.any (fun r => n < r.length) then none
    else some (cols, rows.map (fun r => r ++ List.replicate (n - r.length) "nan"))

/-! ### `TableMelter.melt` (`synthesis.py:75-191`) -/

/-- The per-row scale override (`synthesis.py:150-158`): per-share and ratio
metrics force scale 1; everything else keeps the table-wide scale with unit
`USD`. -/
def scaleUnitFor (tableScale : Dec10) (metricClean : String) : Dec10 × String :=
  if ["per share", "eps"].any (fun kw => containsSub (lowerStr metricClean) kw) then
    (Dec10.ofInt 1, "USD/Share")
  else if ["ratio", "percentage", "margin"].any (fun kw => containsSub (lowerStr metricClean) kw) then
    (Dec10.ofInt 1, "Ratio")
  else (tableScale, "USD")

/-- Emission of one `UFLRow` for a (metric, period) pair
(`synthesis.py:160-189`). -/
def mkMeltRow (entityId entityName blockId docSection metricClean : String)
    (su : Dec10 × String) (periodName rawCell : String) : UFLRow :=
  let rawVal := pyStrip rawCell
  let pn := parseNumeric rawVal
  let scaled := pn.1.map (PyFloat.mulScale su.1)
  let conf : Dec10 := match pn.1 with
    | none => Dec10.ofInt 0
    | some _ => CONFIDENCE_TABLE
  let nu := if containsSub (lowerStr periodName) "restated" then
      some (if pyTruthyStr pn.2 then (pn.2.getD "") ++ " (Restated)" else "Restated")
    else pn.2
  { row_id := md5Hex (rowIdSeed entityId metricClean periodName blockId (pyValStr scaled)),
    entity_id := entityId, entity_name_raw := entityName, metric_name := metricClean,
    value := scaled, unit := su.2, scale_factor := su.1, period := periodName,
    doc_section := docSection, source_chunk_id := blockId, nuance_note := nu,
    confidence := conf }

/-- The cleaned metric name of a DataFrame row (`synthesis.py:146-150`). -/
def meltMetricClean (cells : List String) : String :=
  pyStrip (stripFootnotes (pyStrip (cells.headD "")))

/-- One DataFrame row of the emission loop (`synthesis.py:145-159`). -/
def meltTableRow (entityId entityName blockId docSection : String) (tableScale : Dec10)
    (periodCols : List (String × Nat)) (cells : List String) : List UFLRow :=
  if pyStrip (cells.headD "") = "" || lowerStr (pyStrip (cells.headD "")) = "nan" then []
  else
    periodCols.map (fun pc =>
      mkMeltRow entityId entityName blockId docSection (meltMetricClean cells)
        (scaleUnitFor tableScale (meltMetricClean cells)) pc.1 (cells.getD pc.2 "nan"))

/-- Period columns: the columns (after the first) whose stripped name contains
a `20\d\d` token, with their indices; falling back to the second column alone
(`synthesis.py:140-142`). -/
def periodColsOf (colsS : List String) : List (String × Nat) :=
  let ps := (colsS.enum.drop 1).filter (fun p => containsYear p.2)
  if ps.isEmpty then
    match colsS with
    | _ :: c1 :: _ => [(c1, 1)]
    | _ => []
  else ps.map (fun p => (p.2, p.1))

/-- The cleaned csv lines handed to `pd.read_csv`: hierarchy pass, drop
separator rows, strip outer pipes (`synthesis.py:76-129`). -/
def meltCsvLines (b : DocBlock) : List String :=
  ((hierarchyPass (splitChar '\n' (pyStrip b.content))).filter
    (fun l => !sepRowMatch (pyStrip l))).map stripPipes

/-- `TableMelter.melt`.  The melter's `entity_id` / `entity_name_raw`
constructor arguments are passed explicitly. -/
def melt (entityId entityName : String) (b : DocBlock) : List UFLRow :=
  match readTable (meltCsvLines b) with
  | none => []
  | some cr =>
    cr.2.flatMap (fun cells =>
      meltTableRow entityId entityName b.id (joinSep " > " b.sectionPath) (detectScale b)
        (periodColsOf (cr.1.map pyStrip)) cells)

/-! ### `TextSynthesizer.extract_facts` (`synthesis.py:277-338`)

The oracle call itself (`self.client.chat.completions.create`) is external
inference; its structured output `resp.facts` is taken as an input list.
An oracle failure yields an empty row list, i.e. the empty input. -/

structure ScrapedFact where
  metric_name : String
  value : Option (PyFloat ⊕ String) := none
  unit : String := "USD"
  period : Option String := none
  related_entity : Option String := none
  nuance_note : Option String := none
  confidence : Dec10
deriving DecidableEq, Repr

/-- `fact.period or "UNKNOWN"` (`synthesis.py:305`, Python truthiness). -/
def factPeriod (f : ScrapedFact) : String :=
  match f.period with
  | some p => if p.data.isEmpty then "UNKNOWN" else p
  | none => "UNKNOWN"

/-- The value coercion of `extract_facts` (`synthesis.py:306-316`): a numeric
raw value is cast; a string raw value is attempted as a cleaned float, and on
failure the original string moves into the nuance note. -/
def factValueNuance (f : ScrapedFact) : Option PyFloat × Option String :=
  match f.value with
  | some (Sum.inl q) => (some q, f.nuance_note)
  | some (Sum.inr s) =>
    (match pyFloatOfString (pyStrip (pyReplace s "," "")) with
     | some q => (some q, f.nuance_note)
     | none =>
       (none,
        if pyTruthyStr f.nuance_note then
          some ((f.nuance_note.getD "") ++ " (Raw Value: " ++ s ++ ")")
        else some s))
  | none => (none, f.nuance_note)

/-- The `UFLRow` built for one accepted scraped fact (`synthesis.py:318-336`). -/
def normalizeFactRow (entityId entityName : String) (b : DocBlock) (f : ScrapedFact) : UFLRow :=
  { row_id := md5Hex (rowIdSeed entityId f.metric_name (factPeriod f) b.id
      (pyValStr (factValueNuance f).1)),
    entity_id := entityId, entity_name_raw := entityName,
    metric_name := f.metric_name, related_entity_id := f.related_entity,
    value := (factValueNuance f).1, unit := f.unit, scale_factor := Dec10.ofInt 1,
    period := factPeriod f,
    doc_section := joinSep " > " b.sectionPath, source_chunk_id := b.id,
    nuance_note := (factValueNuance f).2, confidence := f.confidence }

/-- The body of the per-fact loop (`synthesis.py:301-336`); `none` models
`continue` on low confidence. -/
def normalizeFact (entityId entityName : String) (b : DocBlock) (f : ScrapedFact) :
    Option UFLRow :=
  if Dec10.blt f.confidence CONFIDENCE_TEXT_LOW then none
  else some (normalizeFactRow entityId entityName b f)

def extractFacts (entityId entityName : String) (b : DocBlock)
    (facts : List ScrapedFact) : List UFLRow :=
  if (pyStrip b.content).data.length < 10 then []
  else facts.filterMap (normalizeFact entityId entityName b)

/-! ### Document Segmenter (`ingestion.py:26-107`)

`parse_pdf` walks the markdown text returned by the external parsing
service; the walk over one document's lines is modelled here.  Block `id`s
are freshly generated `uuid4` strings (`DocBlock.id` default factory in
`models.py`), i.e. environment randomness, so segmenter outputs are modelled
without the `id` field. -/

structure SegBlock where
  blockType : BlockType
  sectionPath : List String
  content : String
deriving DecidableEq, Repr

def lineHasPipe (l : String) : Bool := containsSub l "|"

/-- `StructuralParser._flush_chunk` (`ingestion.py:81-95`): empty or
whitespace-only buffers produce nothing; a buffer with a pipe and a `---`
separator line becomes a table block, anything else a text block. -/
def flushChunk (chunk : List String) (stack : List String) : List SegBlock :=
  if chunk.isEmpty then []
  else
    let content := pyStrip (joinSep "\n" chunk)
    if content = "" then []
    else
      let hasPipe := chunk.any lineHasPipe
      let hasSep := chunk.any (fun l => lineHasPipe l && containsSub l "---")
      if hasPipe && hasSep then [{ blockType := .table, sectionPath := stack, content := content }]
      else [{ blockType := .text, sectionPath := stack, content := content }]

structure SegState where
  stack : List String
  chunk : List String
  blocks : List SegBlock
deriving DecidableEq, Repr

/-- One line of the segmentation walk (`ingestion.py:44-73`). -/
def segStep (st : SegState) (line : String) : SegState :=
  match headerParse line with
  | some lt =>
    { stack := st.stack.take (lt.1 - 1) ++ [lt.2], chunk := [],
      blocks := st.blocks ++ flushChunk st.chunk st.stack }
  | none =>
    if lineHasPipe line then
      if !st.chunk.isEmpty && !(st.chunk.any lineHasPipe) then
        { stack := st.stack, chunk := [line], blocks := st.blocks ++ flushChunk st.chunk st.stack }
      else { st with chunk := st.chunk ++ [line] }
    else
      if pyStrip line ≠ "" && !st.chunk.isEmpty && st.chunk.any lineHasPipe then
        { stack := st.stack, chunk := [line], blocks := st.blocks ++ flushChunk st.chunk st.stack }
      else { st with chunk := st.chunk ++ [line] }

/-- The segmentation of one document's markdown text (`ingestion.py:37-77`). -/
def parseDoc (content : String) : List SegBlock :=
  let fin := (splitChar '\n' content).foldl segStep { stack := [], chunk := [], blocks := [] }
  fin.blocks ++ flushChunk fin.chunk fin.stack

/-! ### Dual Retriever (`retriever.py`)

`UFLFilter` / `RetrievalPlan` — Modelled from the spec: these two pydantic
models are imported from `venra.models` by `retriever.py`, `navigator.py`
and the tests, but the class definitions are not present in the provided
`models.py`; the shape below follows §3 "Retrieval Plan" of the spec and the
constructions in `tests/test_retriever.py` and `navigator.py`'s fallback
plan.  A pydantic model instance is always truthy, so `if plan.ufl_query`
is `Option.isSome`; list/None fields follow Python truthiness. -/

structure UFLFilter where
  entity_ids : Option (List String) := none
  metric_keywords : Option (List String) := none
  years : Option (List String) := none
  nuance_focus : Option String := none
deriving DecidableEq, Repr

structure RetrievalPlan where
  strategy : String
  ufl_query : Option UFLFilter := none
  vector_hypothesis : String
  vector_keywords : List String := []
  reasoning : String := ""
deriving DecidableEq, Repr

/-- `DualRetriever._query_ufl` (`retriever.py:116-132`).  The pandas
`str.contains` year test and the case-insensitive metric fallback are regex
searches; for metacharacter-free patterns (the planner contract produces
plain year strings and metric words) they are substring containment, as
modelled. -/
def queryUfl (df : List UFLRow) (f : UFLFilter) : List UFLRow :=
  if df.isEmpty then []
  else
    let entOk : UFLRow → Bool := fun r =>
      if pyTruthyList f.entity_ids then (f.entity_ids.getD []).contains r.entity_id else true
    let yearOk : UFLRow → Bool := fun r =>
      if pyTruthyList f.years then (f.years.getD []).any (fun y => containsSub r.period y)
      else true
    let metricOk : UFLRow → Bool :=
      if pyTruthyList f.metric_keywords then
        let kws := f.metric_keywords.getD []
        if df.any (fun r => kws.contains r.metric_name) then
          fun r => kws.contains r.metric_name
        else
          fun r => kws.any (fun m => containsSub (lowerStr r.metric_name) (lowerStr m))
      else fun _ => true
    df.filter (fun r => entOk r && yearOk r && metricOk r)

/-! Python `dict`s keyed by id, as insertion-ordered association lists:
assignment (`m[k] = v`) keeps the first-insertion position of an existing
key and replaces its value; guarded insertion (`if k not in m`) appends. -/

def alKeys {α : Type} (m : List (String × α)) : List String := m.map Prod.fst

def alValues {α : Type} (m : List (String × α)) : List α := m.map Prod.snd

def alInsertOver {α : Type} (k : String) (v : α) : List (String × α) → List (String × α)
  | [] => [(k, v)]
  | (k', v') :: t => if k' = k then (k, v) :: t else (k', v') :: alInsertOver k v t

def alMember {α : Type} (k : String) (m : List (String × α)) : Bool := (alKeys m).contains k

def alInsertIfAbsent {α : Type} (k : String) (v : α) (m : List (String × α)) :
    List (String × α) :=
  if alMember k m then m else m ++ [(k, v)]

/-- `{key(x): x for x in xs}`. -/
def alOfList {α : Type} (key : α → String) (xs : List α) : List (String × α) :=
  xs.foldl (fun m x => alInsertOver (key x) x m) []

/-- First-occurrence deduplication. -/
def firstOccurrences (xs : List String) : List String :=
  xs.foldl (fun acc x => if acc.contains x then acc else acc ++ [x]) []

def countOcc (xs : List String) (k : String) : Nat := (xs.filter (· = k)).length

/-- Stable insertion keeping elements of count `≥` the new one in front. -/
def insertByCountDesc (cnt : String → Nat) (x : String) : List String → List String
  | [] => [x]
  | y :: t => if cnt y < cnt x then x :: y :: t else y :: insertByCountDesc cnt x t

/-- `Counter(xs).most_common()` keys: distinct values sorted by descending
count, ties in first-occurrence order (Python's `sorted` is stable over the
counter's insertion order). -/
def mostCommon (xs : List String) : List String :=
  (firstOccurrences xs).foldl (fun acc k => insertByCountDesc (countOcc xs) k acc) []

/-- The retriever's environment: the loaded ledger parquet and the two
ChromaDB search primitives (`_query_vector`, `_fetch_chunks_by_ids`),
which are external services modelled as oracle functions. -/
structure RetrieverEnv where
  df : List UFLRow
  vectorQuery : String → Nat → List DocBlock
  fetchByIds : List String → List DocBlock

/-- Phase 1 — core similarity (`retriever.py:49`). -/
def phase1Chunks (env : RetrieverEnv) (plan : RetrievalPlan) (k : Nat) : List DocBlock :=
  env.vectorQuery plan.vector_hypothesis k

/-- Phase 1b — keyword boost with effective `k ≥ 5` (`retriever.py:54-59`). -/
def phase1bChunks (env : RetrieverEnv) (plan : RetrievalPlan) (k : Nat) : List DocBlock :=
  phase1Chunks env plan k ++
    (if !plan.vector_keywords.isEmpty then
      env.vectorQuery (joinSep " " plan.vector_keywords) (max k 5)
    else [])

/-- `chunk_id_map = {c.id: c for c in selected_chunks}` (`retriever.py:61`). -/
def chunkMap1 (env : RetrieverEnv) (plan : RetrievalPlan) (k : Nat) : List (String × DocBlock) :=
  alOfList DocBlock.id (phase1bChunks env plan k)

/-- Phase 2 — direct ledger query (`retriever.py:65`). -/
def phase2Rows (env : RetrieverEnv) (plan : RetrievalPlan) : List UFLRow :=
  match plan.ufl_query with
  | some f => queryUfl env.df f
  | none => []

def rowMap2 (env : RetrieverEnv) (plan : RetrievalPlan) : List (String × UFLRow) :=
  alOfList UFLRow.row_id (phase2Rows env plan)

/-- `list(set([r.related_entity_id ... if r.related_entity_id]))`
(`retriever.py:72`).  Python's set iteration order is implementation-defined
(hash-randomised); it is modelled as first-occurrence order, and none of the
proved invariants depend on the order chosen. -/
def relatedEntities (rows : List UFLRow) : List String :=
  firstOccurrences (rows.filterMap (fun r =>
    match r.related_entity_id with
    | some s => if s.data.isEmpty then none else some s
    | none => none))

/-- Phase A — related-entity pivoting (`retriever.py:72-77`). -/
def chunkMapA (env : RetrieverEnv) (plan : RetrievalPlan) (k : Nat) : List (String × DocBlock) :=
  (relatedEntities (phase2Rows env plan)).foldl
    (fun m ent =>
      (env.vectorQuery ("Information about " ++ ent) 2).foldl
        (fun m' ec => alInsertIfAbsent ec.id ec m') m)
    (chunkMap1 env plan k)

/-- Phase B — UFL→chunk frequency expansion (`retriever.py:81-89`): the top 3
most-cited source chunks not already present are fetched and added. -/
def chunkMapB (env : RetrieverEnv) (plan : RetrievalPlan) (k : Nat) (includeChunks : Bool) :
    List (String × DocBlock) :=
  if includeChunks && !(phase2Rows env plan).isEmpty then
    ((((mostCommon ((phase2Rows env plan).map (fun r => r.source_chunk_id))).filter
        (fun cid => !alMember cid (chunkMapA env plan k))).take 3).foldl
      (fun m cid =>
        match env.fetchByIds [cid] with
        | [] => m
        | c :: _ => alInsertOver cid c m)
      (chunkMapA env plan k))
  else chunkMapA env plan k

/-- Phase C — chunk→UFL completeness expansion (`retriever.py:93-99`): all
ledger rows sourced from any present chunk are merged if not yet selected. -/
def rowMapC (env : RetrieverEnv) (plan : RetrievalPlan) (k : Nat)
    (includeChunks includeRows : Bool) : List (String × UFLRow) :=
  if includeRows && !(chunkMapB env plan k includeChunks).isEmpty then
    (env.df.filter (fun r => alMember r.source_chunk_id (chunkMapB env plan k includeChunks))).foldl
      (fun m r => alInsertIfAbsent r.row_id r m) (rowMap2 env plan)
  else rowMap2 env plan

structure RetrievalResult where
  ufl_rows : List UFLRow
  text_chunks : List DocBlock
  ufl_count : Nat
  text_count : Nat
  meta_keywords : List String
deriving Repr

/-- `DualRetriever.retrieve` (`retriever.py:37-114`): the final id-keyed maps
reduced to value lists, plus the meta record. -/
def retrieve (env : RetrieverEnv) (plan : RetrievalPlan) (k : Nat)
    (includeChunks includeRows : Bool) : RetrievalResult :=
  let finalRows := alValues (rowMapC env plan k includeChunks includeRows)
  let finalChunks := alValues (chunkMapB env plan k includeChunks)
  { ufl_rows := finalRows, text_chunks := finalChunks,
    ufl_count := finalRows.length, text_count := finalChunks.length,
    meta_keywords := plan.vector_keywords }

/-! ### Context Assembler (`assembler.py`)

The instruction text loaded from the prompt file and the pandas
`DataFrame.to_markdown` table renderer are external inputs, taken as
parameters. -/

def dedupRows (rows : List UFLRow) : List UFLRow :=
  (rows.foldl
    (fun acc r => if acc.1.contains r.row_id then acc else (acc.1 ++ [r.row_id], acc.2 ++ [r]))
    (([], []) : List String × List UFLRow)).2

def dedupChunks (chunks : List DocBlock) : List DocBlock :=
  (chunks.foldl
    (fun acc c => if acc.1.contains c.id then acc else (acc.1 ++ [c.id], acc.2 ++ [c]))
    (([], []) : List String × List DocBlock)).2

/-- Score of a chunk (`assembler.py:56-68`): +5 when it sources a retrieved
fact row, +1 per keyword appearing (case-insensitively) in its content. -/
def chunkScore (uflSourceIds keywords : List String) (c : DocBlock) : Nat :=
  (if uflSourceIds.contains c.id then 5 else 0) +
    (keywords.filter (fun kw => containsSub (lowerStr c.content) (lowerStr kw))).length

def insertChunkDesc (score : DocBlock → Nat) (x : DocBlock) : List DocBlock → List DocBlock
  | [] => [x]
  | y :: t => if score y < score x then x :: y :: t else y :: insertChunkDesc score x t

/-- `ContextAssembler._rank_and_filter_chunks` (`assembler.py:49-79`):
stable sort by descending score, keep the top `limit`. -/
def rankAndFilterChunks (chunks : List DocBlock) (keywords : List String)
    (uflRows : List UFLRow) (limit : Nat) : List DocBlock :=
  if chunks.length ≤ limit then chunks
  else
    let srcIds := uflRows.filterMap (fun r =>
      if r.source_chunk_id.data.isEmpty then none else some r.source_chunk_id)
    let sorted := chunks.foldl
      (fun acc c => insertChunkDesc (chunkScore srcIds keywords) c acc) []
    sorted.take limit

/-- `ContextAssembler._format_ufl_table` (`assembler.py:99-112`); the
markdown rendering of a non-empty frame is the external `to_markdown`. -/
def formatUflTable (toMarkdown : List UFLRow → String) (rows : List UFLRow) : String :=
  if rows.isEmpty then "No structured facts found." else toMarkdown rows

/-- `ContextAssembler._format_text_blocks` (`assembler.py:114-128`). -/
def formatTextBlocks (chunks : List DocBlock) : String :=
  if chunks.isEmpty then "No source text available."
  else
    joinSep "\n" (chunks.map (fun c =>
      let sec := if c.sectionPath.isEmpty then "Unknown" else joinSep " > " c.sectionPath
      "--- CHUNK_ID: " ++ c.id ++ " ---\nSECTION: " ++ sec ++ "\nCONTENT:\n" ++
        c.content ++ "\n"))

/-- `ContextAssembler.assemble` (`assembler.py:15-47`). -/
def assemble (instructions : String) (toMarkdown : List UFLRow → String)
    (uflRows : List UFLRow) (textChunks : List DocBlock) (keywords : List String) : String :=
  let uniqueRows := dedupRows uflRows
  let uniqueChunks := dedupChunks textChunks
  let finalChunks := rankAndFilterChunks uniqueChunks keywords uniqueRows 5
  let uflContext := formatUflTable toMarkdown uniqueRows
  let textContext := formatTextBlocks finalChunks
  "\n# VERIFIABLE FACT LEDGER (UFL) ROWS\n" ++ uflContext ++
    "\n\n# SOURCE TEXT CHUNKS\n" ++ textContext ++
    "\n\n# INSTRUCTIONS FOR REASONING:\n" ++ instructions ++ "\n"

/-! ### Helper lemmas: character classes -/

/-- The characters a `<number>` may be made of in the footnote claims:
digits, thousands separators, decimal point. -/
def numeralChar (c : Char) : Bool := isAsciiDigit c || c = ',' || c = '.'

lemma isPySpace_eq_false_of_numeral {c : Char} (h : numeralChar c = true) :
    isPySpace c = false := by
  cases hsp : isPySpace c
  · rfl
  · exfalso
    simp only [isPySpace, Bool.or_eq_true, decide_eq_true_eq] at hsp
    rcases hsp with ((((rfl | rfl) | rfl) | rfl) | rfl) | rfl <;> exact absurd h (by decide)

lemma ne_paren_of_numeral {c : Char} (h : numeralChar c = true) : c ≠ '(' := by
  rintro rfl; exact absurd h (by decide)

lemma ne_amp_of_numeral {c : Char} (h : numeralChar c = true) : c ≠ '&' := by
  rintro rfl; exact absurd h (by decide)

lemma not_lower_of_numeral {c : Char} (h : numeralChar c = true) :
    ('a' ≤ c && c ≤ 'z') = false := by
  cases hlz : ('a' ≤ c && c ≤ 'z')
  · rfl
  · exfalso
    simp only [Bool.and_eq_true, decide_eq_true_eq] at hlz
    simp only [numeralChar, isAsciiDigit, Bool.or_eq_true, Bool.and_eq_true,
      decide_eq_true_eq] at h
    rcases h with (⟨_, h9⟩ | rfl) | rfl
    · exact absurd (le_trans hlz.1 h9) (by decide)
    · exact absurd hlz.1 (by decide)
    · exact absurd hlz.1 (by decide)

lemma ne_amp_of_word {c : Char} (h : isWordChar c = true) : c ≠ '&' := by
  rintro rfl; exact absurd h (by decide)

/-! ### Helper lemmas: strip / replace identities -/

lemma dropWhile_eq_self_of_head {p : Char → Bool} {l : List Char}
    (h : ∀ c, l.head? = some c → p c = false) : l.dropWhile p = l := by
  cases l with
  | nil => rfl
  | cons c t => simp [List.dropWhile_cons, h c rfl]

lemma stripCharsBy_eq_self {p : Char → Bool} {l : List Char}
    (h1 : ∀ c, l.head? = some c → p c = false)
    (h2 : ∀ c, l.getLast? = some c → p c = false) :
    stripCharsBy p l = l := by
  unfold stripCharsBy stripLeftChars stripRightChars
  rw [dropWhile_eq_self_of_head h1]
  rw [dropWhile_eq_self_of_head (by
    intro c hc
    exact h2 c (by rwa [List.head?_reverse] at hc))]
  exact List.reverse_reverse l

lemma pyStrip_eq_self {s : String}
    (h1 : ∀ c, s.data.head? = some c → isPySpace c = false)
    (h2 : ∀ c, s.data.getLast? = some c → isPySpace c = false) :
    pyStrip s = s := by
  unfold pyStrip
  rw [stripCharsBy_eq_self h1 h2]

lemma replaceAux_amp {pt repl : List Char} :
    ∀ (l : List Char) (fuel : Nat), '&' ∉ l →
      replaceAux ('&' :: pt) repl fuel l = l := by
  intro l
  induction l with
  | nil => intro fuel _; cases fuel <;> rfl
  | cons c t ih =>
    intro fuel hmem
    cases fuel with
    | zero => rfl
    | succ fuel =>
      have hc : c ≠ '&' := fun h => hmem (h ▸ List.mem_cons_self c t)
      have hpre : List.isPrefixOf ('&' :: pt) (c :: t) = false := by
        simp [List.isPrefixOf_cons₂]
        intro h
        exact absurd h.symm hc
      simp only [replaceAux, hpre, Bool.false_eq_true, if_false, List.cons.injEq, true_and]
      exact ih fuel (fun h => hmem (List.mem_cons_of_mem c h))

lemma pyReplace_nbsp_eq_self {s : String} (h : '&' ∉ s.data) :
    pyReplace s "&nbsp;" " " = s := by
  have hd : "&nbsp;".data = '&' :: "nbsp;".data := rfl
  unfold pyReplace
  rw [hd]
  simp only [List.isEmpty_cons, if_false, Bool.false_eq_true]
  rw [replaceAux_amp s.data s.data.length h]

lemma cleanCell_eq_self {s : String}
    (h1 : ∀ c, s.data.head? = some c → isPySpace c = false)
    (h2 : ∀ c, s.data.getLast? = some c → isPySpace c = false)
    (h3 : '&' ∉ s.data) :
    cleanCell s = s := by
  unfold cleanCell
  rw [pyStrip_eq_self h1 h2, pyReplace_nbsp_eq_self h3, pyStrip_eq_self h1 h2]

/-! ### Helper lemmas: the footnote scanner -/

lemma stripFootnotesAux_nil (fuel : Nat) : stripFootnotesAux fuel [] = [] := by
  cases fuel <;> rfl

lemma stripFootnotesAux_cons_inert {c : Char} {t : List Char} (fuel : Nat)
    (h1 : isPySpace c = false) (h2 : c ≠ '(') :
    stripFootnotesAux (fuel + 1) (c :: t) = c :: stripFootnotesAux fuel t := by
  simp only [stripFootnotesAux, List.takeWhile_cons, h1, Bool.false_eq_true, if_false,
    List.length_nil, List.drop_zero]
  split
  · next heq => exact absurd (List.head_eq_of_cons_eq heq) h2
  · rfl

lemma takeWhile_append_head_false {p : Char → Bool} {x : Char} (hx : p x = false) :
    ∀ (f t : List Char), (∀ c ∈ f, p c = true) →
      (f ++ x :: t).takeWhile p = f := by
  intro f
  induction f with
  | nil => intro t _; simp [List.takeWhile_cons, hx]
  | cons c f' ih =>
    intro t hf
    simp only [List.cons_append, List.takeWhile_cons, hf c (List.mem_cons_self c f'),
      if_true, List.cons.injEq, true_and]
    exact ih t (fun d hd => hf d (List.mem_cons_of_mem c hd))

lemma stripFootnotesAux_group {f rest : List Char} (fuel : Nat)
    (hf : f ≠ []) (hw : ∀ c ∈ f, isWordChar c = true) :
    stripFootnotesAux (fuel + 1) ('(' :: (f ++ ')' :: rest)) = stripFootnotesAux fuel rest := by
  have hws : isPySpace '(' = false := by decide
  have hwc : isWordChar ')' = false := by decide
  simp only [stripFootnotesAux, List.takeWhile_cons, hws, Bool.false_eq_true, if_false,
    List.length_nil, List.drop_zero, takeWhile_append_head_false hwc f rest hw,
    List.drop_left]
  cases f with
  | nil => exact absurd rfl hf
  | cons c f' => rfl

lemma stripFootnotesAux_no_paren :
    ∀ (l : List Char) (fuel : Nat), l.length ≤ fuel → '(' ∉ l →
      stripFootnotesAux fuel l = l := by
  intro l
  induction l with
  | nil => intro fuel _ _; exact stripFootnotesAux_nil fuel
  | cons c t ih =>
    intro fuel hlen hmem
    cases fuel with
    | zero => exact absurd hlen (by simp)
    | succ fuel =>
      have htail : stripFootnotesAux fuel t = t :=
        ih fuel (Nat.le_of_succ_le_succ hlen) (fun h => hmem (List.mem_cons_of_mem c h))
      simp only [stripFootnotesAux]
      split
      · next heq =>
        exfalso
        have : '(' ∈ (c :: t).drop ((c :: t).takeWhile isPySpace).length := by
          rw [heq]; exact List.mem_cons_self '(' _
        exact hmem (List.drop_subset _ _ this)
      · exact congrArg (c :: ·) htail

lemma stripFootnotesAux_numeral_group :
    ∀ (n f : List Char) (fuel : Nat), n.length + f.length + 2 ≤ fuel →
      (∀ c ∈ n, numeralChar c = true) → f ≠ [] → (∀ c ∈ f, isWordChar c = true) →
      stripFootnotesAux fuel (n ++ '(' :: (f ++ [')'])) = n := by
  intro n
  induction n with
  | nil =>
    intro f fuel hlen hn hf hw
    cases fuel with
    | zero => exact absurd hlen (by simp)
    | succ fuel =>
      simp only [List.nil_append]
      rw [show (f ++ [')'] : List Char) = f ++ ')' :: [] from rfl]
      rw [stripFootnotesAux_group fuel hf hw]
      exact stripFootnotesAux_nil fuel
  | cons c t ih =>
    intro f fuel hlen hn hf hw
    cases fuel with
    | zero => exact absurd hlen (by simp)
    | succ fuel =>
      have hc : numeralChar c = true := hn c (List.mem_cons_self c t)
      simp only [List.cons_append]
      rw [stripFootnotesAux_cons_inert fuel (isPySpace_eq_false_of_numeral hc)
        (ne_paren_of_numeral hc)]
      rw [ih f fuel (by simp only [List.length_cons] at hlen; omega)
        (fun d hd => hn d (List.mem_cons_of_mem c hd)) hf hw]

lemma data_concat_footnote (N F : String) :
    (N ++ "(" ++ F ++ ")").data = N.data ++ '(' :: (F.data ++ [')']) := by
  simp [String.data_append]

lemma stripFootnotes_no_paren {s : String} (h : '(' ∉ s.data) :
    stripFootnotes s = s := by
  unfold stripFootnotes
  rw [stripFootnotesAux_no_paren s.data s.data.length le_rfl h]

lemma stripFootnotes_concat {N F : String}
    (hNc : ∀ c ∈ N.data, numeralChar c = true)
    (hF : F.data ≠ []) (hFc : ∀ c ∈ F.data, isWordChar c = true) :
    stripFootnotes (N ++ "(" ++ F ++ ")") = N := by
  unfold stripFootnotes
  rw [data_concat_footnote]
  rw [stripFootnotesAux_numeral_group N.data F.data _
    (by simp [List.length_append, List.length_cons]; omega) hNc hF hFc]

/-! ### Claim C3 — dash-as-zero -/

/-- C3 (counterexample): the claim's quoted nuance string
`"dash treated as zero"` is not what `_parse_numeric` returns for a lone
em-dash: the code's nuance is capitalised (`"Dash treated as zero"`,
`synthesis.py:224`), so the pair demanded by the claim is not produced. -/
theorem dash_nuance_capitalisation_cex :
    ¬ (parseNumeric "—" = (some (.val (Dec10.ofInt 0)), some "dash treated as zero")) := by
  decide

/-- C3 (amended): every raw cell that cleans (strip, `&nbsp;` removal, strip)
to exactly an em-dash or a plain hyphen parses to exactly `0.0` with the
nuance `"Dash treated as zero"` (capital `D`). -/
theorem dash_as_zero (s : String)
    (h : cleanCell s = "—" ∨ cleanCell s = "-") :
    parseNumeric s = (some (.val (Dec10.ofInt 0)), some "Dash treated as zero") := by
  unfold parseNumeric
  rcases h with h | h <;> rw [h] <;> decide

theorem dash_as_zero_witness :
    (cleanCell "&nbsp;—&nbsp;" = "—" ∨ cleanCell "&nbsp;—&nbsp;" = "-") ∧
    parseNumeric "&nbsp;—&nbsp;" =
      (some (.val (Dec10.ofInt 0)), some "Dash treated as zero") :=
  ⟨Or.inl (by decide), dash_as_zero "&nbsp;—&nbsp;" (Or.inl (by decide))⟩

/-! ### Claim C4 — footnote stripping -/

/-- C4: for every cell `<number>(<footnote>)` — the number made of digits,
thousands separators and decimal points, the footnote a non-empty
parenthesized alphanumeric token — `_parse_numeric` strips the footnote
exactly and parses the remaining number: `"1,234(1)"` parses to `1234.0`
(not `12341.0`), and a single trailing letter glued to a number is stripped
(`"10.5b"` parses as `10.5`). -/
theorem footnote_strip_exact :
    (∀ numPart footPart : String,
        numPart.data ≠ [] → (∀ c ∈ numPart.data, numeralChar c = true) →
        footPart.data ≠ [] → (∀ c ∈ footPart.data, isWordChar c = true) →
        parseNumeric (numPart ++ "(" ++ footPart ++ ")") = parseNumeric numPart) ∧
    parseNumeric "1,234(1)" = (some (.val (Dec10.ofInt 1234)), none) ∧
    parseNumeric "10.5b" = (some (.val (Dec10.canon 105 (-1))), none) := by
  refine ⟨?_, by decide, by decide⟩
  intro N F hN hNc hF hFc
  obtain ⟨c0, nt, hd⟩ : ∃ c0 nt, N.data = c0 :: nt := by
    cases hdd : N.data with
    | nil => exact absurd hdd hN
    | cons a b => exact ⟨a, b, rfl⟩
  have hc0 : numeralChar c0 = true := hNc c0 (by rw [hd]; exact List.mem_cons_self c0 nt)
  have hdataC : (N ++ "(" ++ F ++ ")").data = c0 :: (nt ++ '(' :: (F.data ++ [')'])) := by
    rw [data_concat_footnote, hd]; rfl
  -- the combined string and the bare number are both fixed by the cleaning pass
  have hampN : '&' ∉ N.data := fun hmem => ne_amp_of_numeral (hNc '&' hmem) rfl
  have hlastN : ∀ c, N.data.getLast? = some c → isPySpace c = false := by
    intro c hc
    exact isPySpace_eq_false_of_numeral (hNc c (List.mem_of_getLast?_eq_some hc))
  have hheadN : ∀ c, N.data.head? = some c → isPySpace c = false := by
    intro c hc
    rw [hd] at hc
    cases hc
    exact isPySpace_eq_false_of_numeral hc0
  have hCc : cleanCell (N ++ "(" ++ F ++ ")") = N ++ "(" ++ F ++ ")" := by
    refine cleanCell_eq_self ?_ ?_ ?_
    · intro c hc
      rw [hdataC] at hc
      cases hc
      exact isPySpace_eq_false_of_numeral hc0
    · intro c hc
      rw [data_concat_footnote] at hc
      rw [show (N.data ++ '(' :: (F.data ++ [')']) : List Char)
            = (N.data ++ '(' :: F.data) ++ [')'] by simp] at hc
      rw [List.getLast?_concat] at hc
      cases hc
      decide
    · rw [data_concat_footnote]
      intro hmem
      rcases List.mem_append.mp hmem with h | h
      · exact ne_amp_of_numeral (hNc '&' h) rfl
      · rcases h with _ | ⟨_, h⟩
        · rcases List.mem_append.mp h with h | h
          · exact ne_amp_of_word (hFc '&' h) rfl
          · simp at h
  have hCn : cleanCell N = N := cleanCell_eq_self hheadN hlastN hampN
  unfold parseNumeric
  rw [hCc, hCn]
  -- neither string is a lone dash
  have hdash1 : dashStrings.contains (N ++ "(" ++ F ++ ")") = false := by
    have hce : dashStrings.contains (N ++ "(" ++ F ++ ")")
        = decide ((N ++ "(" ++ F ++ ")") ∈ dashStrings) := List.elem_eq_mem _ _
    rw [hce]
    simp only [decide_eq_false_iff_not, dashStrings]
    intro hmem
    rw [List.mem_cons, List.mem_cons, List.mem_singleton] at hmem
    have : '(' ∈ (N ++ "(" ++ F ++ ")").data := by
      rw [hdataC]
      rcases eq_or_ne c0 '(' with h | h
      · exact h ▸ List.mem_cons_self _ _
      · exact List.mem_cons_of_mem _ (List.mem_append_right nt (List.mem_cons_self _ _))
    rcases hmem with h | h | h <;> (rw [h] at this; simp at this)
  have hdash2 : dashStrings.contains N = false := by
    have hce : dashStrings.contains N = decide (N ∈ dashStrings) := List.elem_eq_mem _ _
    rw [hce]
    simp only [decide_eq_false_iff_not, dashStrings]
    intro hmem
    rw [List.mem_cons, List.mem_cons, List.mem_singleton] at hmem
    rcases hmem with h | h | h <;>
      (rw [h] at hd; injection hd with h1 _; rw [← h1] at hc0; exact absurd hc0 (by decide))
  -- neither string is parenthesis-wrapped
  have hpw1 : parenWrapped (N ++ "(" ++ F ++ ")") = false := by
    unfold parenWrapped
    rw [hdataC]
    simp only [List.head?_cons, Bool.and_eq_false_iff]
    left
    rw [beq_eq_false_iff_ne]
    intro h
    injection h with h
    exact ne_paren_of_numeral hc0 h
  have hpw2 : parenWrapped N = false := by
    unfold parenWrapped
    rw [hd]
    simp only [List.head?_cons, Bool.and_eq_false_iff]
    left
    rw [beq_eq_false_iff_ne]
    intro h
    injection h with h
    exact ne_paren_of_numeral hc0 h
  -- the footnote scanner removes exactly the parenthesized token
  have hsf1 : stripFootnotes (N ++ "(" ++ F ++ ")") = N := stripFootnotes_concat hNc hF hFc
  have hsf2 : stripFootnotes N = N :=
    stripFootnotes_no_paren (fun hmem => ne_paren_of_numeral (hNc '(' hmem) rfl)
  simp only [parseNumericCore, hdash1, hdash2, hpw1, hpw2, Bool.false_eq_true, if_false,
    hsf1, hsf2]

theorem footnote_strip_exact_witness :
    ("1,234".data ≠ [] ∧ (∀ c ∈ "1,234".data, numeralChar c = true) ∧
      "1".data ≠ [] ∧ (∀ c ∈ "1".data, isWordChar c = true)) ∧
    parseNumeric ("1,234" ++ "(" ++ "1" ++ ")") = parseNumeric "1,234" := by
  refine ⟨⟨by decide, by decide, by decide, by decide⟩, ?_⟩
  exact footnote_strip_exact.1 "1,234" "1" (by decide) (by decide) (by decide) (by decide)

/-! ### Claim C9 — Context Assembler empty-input placeholders -/

/-- C9: with zero fact rows and zero blocks (for any keyword list, prompt
instructions and external table renderer), the assembled context is exactly
the fixed template with both section headers present and the two placeholder
texts `"No structured facts found."` and `"No source text available."` in
place of the missing content — no section is omitted. -/
theorem assembler_empty_placeholders
    (instructions : String) (toMarkdown : List UFLRow → String) (keywords : List String) :
    assemble instructions toMarkdown [] [] keywords =
      "\n# VERIFIABLE FACT LEDGER (UFL) ROWS\nNo structured facts found.\n\n# SOURCE TEXT CHUNKS\nNo source text available.\n\n# INSTRUCTIONS FOR REASONING:\n"
        ++ instructions ++ "\n" := by
  rfl

/-! ### Claim C6 — segmenter header scoping -/

/-- The scenario document of the claim. -/
def segScenarioInput : String := "# A\ntext\n## B\nmore\n# C\nend"

/-- C6: (i) a header line flushes the pending block under the *current*
header stack and only afterwards truncates the stack to `level-1` entries
and pushes the new title; (ii) the scenario input yields exactly 3 text
blocks with section paths `["A"]`, `["A","B"]`, `["C"]`. -/
theorem segmenter_header_scoping :
    (∀ (st : SegState) (line : String) (lvl : Nat) (title : String),
        headerParse line = some (lvl, title) →
        segStep st line =
          { stack := st.stack.take (lvl - 1) ++ [title], chunk := [],
            blocks := st.blocks ++ flushChunk st.chunk st.stack }) ∧
    parseDoc segScenarioInput =
      [{ blockType := .text, sectionPath := ["A"], content := "text" },
       { blockType := .text, sectionPath := ["A", "B"], content := "more" },
       { blockType := .text, sectionPath := ["C"], content := "end" }] := by
  constructor
  · intro st line lvl title h
    unfold segStep
    rw [h]
  · decide

theorem segmenter_header_scoping_witness :
    headerParse "## B" = some (2, "B") ∧
    segStep { stack := ["A"], chunk := ["text"], blocks := [] } "## B" =
      { stack := ["A", "B"], chunk := [],
        blocks := [{ blockType := .text, sectionPath := ["A"], content := "text" }] } := by
  refine ⟨by decide, ?_⟩
  rw [segmenter_header_scoping.1 { stack := ["A"], chunk := ["text"], blocks := [] }
    "## B" 2 "B" (by decide)]
  decide

/-! ### Helper lemma: the shape of every melted row -/

/-- Every row emitted by `melt` is `mkMeltRow` applied to the melter's
entity, the block's id and breadcrumb, some cleaned metric name with its
scale/unit override, and some period column and raw cell. -/
lemma mem_melt_shape {e nm : String} {b : DocBlock} {r : UFLRow} (hr : r ∈ melt e nm b) :
    ∃ (metricClean periodName rawCell : String),
      r = mkMeltRow e nm b.id (joinSep " > " b.sectionPath) metricClean
            (scaleUnitFor (detectScale b) metricClean) periodName rawCell := by
  unfold melt at hr
  split at hr
  · exact absurd hr (List.not_mem_nil r)
  · rw [List.mem_flatMap] at hr
    obtain ⟨cells, _, hr⟩ := hr
    unfold meltTableRow at hr
    split at hr
    · exact absurd hr (List.not_mem_nil r)
    · rw [List.mem_map] at hr
      obtain ⟨pc, _, hout⟩ := hr
      exact ⟨_, _, _, hout.symm⟩

/-! ### Claim C2 — mixed-scale exception -/

/-- The scenario table `T1` of the claim, under the header path
`["Income Statement", "(In Millions)"]`. -/
def scenarioT1 : DocBlock :=
  { id := "T1"
    blockType := BlockType.table
    sectionPath := ["Income Statement", "(In Millions)"]
    content := "| Metric | 2023 |\n|---|---|\n| Net Income | 500 |\n| Earnings Per Share | 5.25 |" }

/-- C2: in a table whose scale context (section path + first content line)
contains `"millions"`, (i) every emitted row whose cleaned metric label
contains `"per share"` or `"eps"` carries `scale_factor` exactly `1.0`;
(ii) every row matching neither the per-share nor the ratio keywords
carries `scale_factor` exactly `1e6`; (iii) every row's value is the parsed
cell value multiplied by the row's scale factor (so per-share values are
unscaled and other currency values are multiplied by 1,000,000); and (iv)
the scenario table yields Net Income `500000000.0` with scale `1e6` and
Earnings Per Share `5.25` with scale `1.0`. -/
theorem mixed_scale_exception :
    (∀ (e nm : String) (b : DocBlock) (r : UFLRow),
        containsSub (scaleContext b) "millions" = true → r ∈ melt e nm b →
        ((containsSub (lowerStr r.metric_name) "per share" = true ∨
          containsSub (lowerStr r.metric_name) "eps" = true) →
            r.scale_factor = Dec10.ofInt 1) ∧
        ((containsSub (lowerStr r.metric_name) "per share" = false ∧
          containsSub (lowerStr r.metric_name) "eps" = false ∧
          containsSub (lowerStr r.metric_name) "ratio" = false ∧
          containsSub (lowerStr r.metric_name) "percentage" = false ∧
          containsSub (lowerStr r.metric_name) "margin" = false) →
            r.scale_factor = Dec10.ofInt 1000000) ∧
        (∃ raw, r.value = (parseNumeric raw).1.map (PyFloat.mulScale r.scale_factor))) ∧
    (melt "ID_X" "XCorp" scenarioT1).map (fun r => (r.metric_name, r.value, r.scale_factor)) =
      [("Net Income", some (.val (Dec10.ofInt 500000000)), Dec10.ofInt 1000000),
       ("Earnings Per Share", some (.val (Dec10.canon 525 (-2))), Dec10.ofInt 1)] := by
  constructor
  · intro e nm b r hmill hr
    obtain ⟨mc, pn, raw, hshape⟩ := mem_melt_shape hr
    have hscale : detectScale b = Dec10.ofInt 1000000 := by
      unfold detectScale
      rw [hmill]
      rfl
    have hmetric : r.metric_name = mc := by rw [hshape]; rfl
    have hsf : r.scale_factor = (scaleUnitFor (detectScale b) mc).1 := by rw [hshape]; rfl
    have hval : r.value = (parseNumeric (pyStrip raw)).1.map
        (PyFloat.mulScale (scaleUnitFor (detectScale b) mc).1) := by
      rw [hshape]; rfl
    refine ⟨?_, ?_, ⟨pyStrip raw, by rw [hval, hsf]⟩⟩
    · intro hps
      rw [hsf, hscale]
      unfold scaleUnitFor
      rw [if_pos]
      simp only [List.any_cons, List.any_nil, Bool.or_false, Bool.or_eq_true]
      rw [← hmetric]
      exact hps
    · rintro ⟨h1, h2, h3, h4, h5⟩
      rw [hmetric] at h1 h2 h3 h4 h5
      rw [hsf, hscale]
      unfold scaleUnitFor
      rw [if_neg, if_neg]
      · simp only [List.any_cons, List.any_nil, Bool.or_false, Bool.or_eq_true, h3, h4, h5,
          or_self, not_false_eq_true]
        simp [h3, h4, h5]
      · simp [h1, h2]
  · decide

theorem mixed_scale_exception_witness :
    containsSub (scaleContext scenarioT1) "millions" = true ∧
    ((melt "ID_X" "XCorp" scenarioT1).getD 1
        (mkMeltRow "" "" "" "" "" (Dec10.ofInt 1, "") "" ""))
      ∈ melt "ID_X" "XCorp" scenarioT1 ∧
    ((melt "ID_X" "XCorp" scenarioT1).getD 1
        (mkMeltRow "" "" "" "" "" (Dec10.ofInt 1, "") "" "")).scale_factor
      = Dec10.ofInt 1 := by
  refine ⟨by decide, by decide, ?_⟩
  exact (mixed_scale_exception.1 "ID_X" "XCorp" scenarioT1 _ (by decide) (by decide)).1
    (Or.inl (by decide))

/-! ### Helper lemmas: splitting an underscore-joined seed -/

lemma splitCharAux_no_sep {c : Char} :
    ∀ (l acc : List Char), c ∉ l → splitCharAux c l acc = [acc.reverse ++ l] := by
  intro l
  induction l with
  | nil => intro acc _; simp [splitCharAux]
  | cons x t ih =>
    intro acc hmem
    have hx : x ≠ c := fun h => hmem (h ▸ List.mem_cons_self x t)
    simp only [splitCharAux, if_neg hx]
    rw [ih (x :: acc) (fun h => hmem (List.mem_cons_of_mem x h))]
    simp

lemma splitCharAux_with_sep {c : Char} :
    ∀ (x acc r : List Char), c ∉ x →
      splitCharAux c (x ++ c :: r) acc = (acc.reverse ++ x) :: splitCharAux c r [] := by
  intro x
  induction x with
  | nil => intro acc r _; simp [splitCharAux]
  | cons y t ih =>
    intro acc r hmem
    have hy : y ≠ c := fun h => hmem (h ▸ List.mem_cons_self y t)
    simp only [List.cons_append, splitCharAux, if_neg hy, List.append_eq]
    rw [ih (y :: acc) r (fun h => hmem (List.mem_cons_of_mem y h))]
    simp

lemma splitChar_joinSep {c : Char} {sep : String} (hsep : sep.data = [c]) :
    ∀ (parts : List String), parts ≠ [] → (∀ p ∈ parts, c ∉ p.data) →
      splitChar c (joinSep sep parts) = parts := by
  intro parts
  induction parts with
  | nil => intro h _; exact absurd rfl h
  | cons x rest ih =>
    intro _ hfree
    cases rest with
    | nil =>
      unfold splitChar joinSep
      rw [splitCharAux_no_sep x.data [] (hfree x (List.mem_cons_self x []))]
      rfl
    | cons y t =>
      unfold splitChar joinSep
      have hdata : (x ++ sep ++ joinSep sep (y :: t)).data
          = x.data ++ c :: (joinSep sep (y :: t)).data := by
        simp [String.data_append, hsep]
      rw [hdata, splitCharAux_with_sep x.data [] (joinSep sep (y :: t)).data
        (hfree x (List.mem_cons_self x (y :: t)))]
      simp only [List.reverse_nil, List.nil_append, List.map_cons]
      have hx : (⟨x.data⟩ : String) = x := rfl
      rw [hx]
      exact congrArg (List.cons x) (ih (by simp) (fun p hp => hfree p (List.mem_cons_of_mem x hp)))

lemma rowIdSeed_as_join (a b c d e : String) :
    rowIdSeed a b c d e = joinSep "_" [a, b, c, d, e] := by
  simp [rowIdSeed, joinSep, String.append_assoc]

/-- Underscore-free fields make the underscore-delimited seed injective. -/
lemma rowIdSeed_inj {a1 b1 c1 d1 e1 a2 b2 c2 d2 e2 : String}
    (ha1 : '_' ∉ a1.data) (hb1 : '_' ∉ b1.data) (hc1 : '_' ∉ c1.data)
    (hd1 : '_' ∉ d1.data) (he1 : '_' ∉ e1.data)
    (ha2 : '_' ∉ a2.data) (hb2 : '_' ∉ b2.data) (hc2 : '_' ∉ c2.data)
    (hd2 : '_' ∉ d2.data) (he2 : '_' ∉ e2.data)
    (heq : rowIdSeed a1 b1 c1 d1 e1 = rowIdSeed a2 b2 c2 d2 e2) :
    a1 = a2 ∧ b1 = b2 ∧ c1 = c2 ∧ d1 = d2 ∧ e1 = e2 := by
  have husep : ("_" : String).data = ['_'] := rfl
  have h1 : splitChar '_' (rowIdSeed a1 b1 c1 d1 e1) = [a1, b1, c1, d1, e1] := by
    rw [rowIdSeed_as_join]
    refine splitChar_joinSep husep _ (by simp) ?_
    intro p hp
    rw [List.mem_cons, List.mem_cons, List.mem_cons, List.mem_cons, List.mem_singleton] at hp
    rcases hp with rfl | rfl | rfl | rfl | rfl <;> assumption
  have h2 : splitChar '_' (rowIdSeed a2 b2 c2 d2 e2) = [a2, b2, c2, d2, e2] := by
    rw [rowIdSeed_as_join]
    refine splitChar_joinSep husep _ (by simp) ?_
    intro p hp
    rw [List.mem_cons, List.mem_cons, List.mem_cons, List.mem_cons, List.mem_singleton] at hp
    rcases hp with rfl | rfl | rfl | rfl | rfl <;> assumption
  rw [heq, h2] at h1
  obtain ⟨q1, q2, q3, q4, q5⟩ : a2 = a1 ∧ b2 = b1 ∧ c2 = c1 ∧ d2 = d1 ∧ e2 = e1 := by
    simpa using h1
  exact ⟨q1.symm, q2.symm, q3.symm, q4.symm, q5.symm⟩

/-! ### Claim C1 — row-id determinism and uniqueness -/

/-- The counterexample table: column labels `2023` and `FY_2023`, row labels
`Cash_FY` and `Cash`. -/
def rowIdCexBlock : DocBlock :=
  { id := "B2"
    blockType := BlockType.table
    sectionPath := ["Balance"]
    content := "| Item | 2023 | FY_2023 |\n| --- | --- | --- |\n| Cash_FY | 7 | 8 |\n| Cash | 9 | 7 |" }

/-- C1 (counterexample): one single `melt` run emits two fact rows (indices
0 and 3) that differ in both metric (`Cash_FY` vs `Cash`) and period
(`2023` vs `FY_2023`) yet receive the *same* `row_id`: the underscore-joined
seed `E_Cash_FY_2023_B2_7.0` is ambiguous, so rows differing in metric and
period do not always receive different row ids, and a single ingestion can
produce duplicate `row_id`s. -/
theorem rowId_underscore_collision_cex :
    ((melt "E" "Ent" rowIdCexBlock).get? 0).map UFLRow.row_id =
      ((melt "E" "Ent" rowIdCexBlock).get? 3).map UFLRow.row_id ∧
    ((melt "E" "Ent" rowIdCexBlock).get? 0).map UFLRow.metric_name ≠
      ((melt "E" "Ent" rowIdCexBlock).get? 3).map UFLRow.metric_name ∧
    ((melt "E" "Ent" rowIdCexBlock).get? 0).map UFLRow.period ≠
      ((melt "E" "Ent" rowIdCexBlock).get? 3).map UFLRow.period ∧
    (melt "E" "Ent" rowIdCexBlock).length = 4 := by
  decide

/-- C1 (amended): (i)/(ii) every row emitted by the Table Melter or the Text
Fact Normalizer carries `row_id = md5(entity_metric_period_block_value)` as
a function of exactly those fields — so re-running either component on
identical input (same block id) reproduces identical row ids, and (iii) two
fact rows differing in entity, metric, period, source block or final value
receive different row ids *provided* the five seed fields contain no
underscore (the hash being collision-free); underscore-bearing fields can
collide, as the counterexample shows. -/
theorem rowId_determinism_and_seed_uniqueness :
    (∀ (e nm : String) (b : DocBlock) (r : UFLRow), r ∈ melt e nm b →
        r.row_id = md5Hex (rowIdSeed e r.metric_name r.period b.id (pyValStr r.value))) ∧
    (∀ (e nm : String) (b : DocBlock) (fs : List ScrapedFact) (r : UFLRow),
        r ∈ extractFacts e nm b fs →
        r.row_id = md5Hex (rowIdSeed e r.metric_name r.period b.id (pyValStr r.value))) ∧
    (∀ a1 b1 c1 d1 e1 a2 b2 c2 d2 e2 : String,
        '_' ∉ a1.data → '_' ∉ b1.data → '_' ∉ c1.data → '_' ∉ d1.data → '_' ∉ e1.data →
        '_' ∉ a2.data → '_' ∉ b2.data → '_' ∉ c2.data → '_' ∉ d2.data → '_' ∉ e2.data →
        md5Hex (rowIdSeed a1 b1 c1 d1 e1) = md5Hex (rowIdSeed a2 b2 c2 d2 e2) →
        a1 = a2 ∧ b1 = b2 ∧ c1 = c2 ∧ d1 = d2 ∧ e1 = e2) := by
  refine ⟨?_, ?_, ?_⟩
  · intro e nm b r hr
    obtain ⟨mc, pn, raw, hshape⟩ := mem_melt_shape hr
    rw [hshape]
    rfl
  · intro e nm b fs r hr
    unfold extractFacts at hr
    split at hr
    · exact absurd hr (List.not_mem_nil r)
    · rw [List.mem_filterMap] at hr
      obtain ⟨f, _, hnorm⟩ := hr
      unfold normalizeFact at hnorm
      split at hnorm
      · exact absurd hnorm (by simp)
      · rw [← Option.some.inj hnorm]
        rfl
  · intro a1 b1 c1 d1 e1 a2 b2 c2 d2 e2 ha1 hb1 hc1 hd1 he1 ha2 hb2 hc2 hd2 he2 heq
    exact rowIdSeed_inj ha1 hb1 hc1 hd1 he1 ha2 hb2 hc2 hd2 he2 heq

theorem rowId_determinism_witness :
    ((melt "ID_X" "XCorp" scenarioT1).getD 0
        (mkMeltRow "" "" "" "" "" (Dec10.ofInt 1, "") "" "")).row_id =
      md5Hex (rowIdSeed "ID_X" "Net Income" "2023" "T1" "500000000.0") ∧
    ("A" ≠ "B" → md5Hex (rowIdSeed "E" "A" "2023" "T1" "5.0") ≠
      md5Hex (rowIdSeed "E" "B" "2023" "T1" "5.0")) := by
  constructor
  · have h := rowId_determinism_and_seed_uniqueness.1 "ID_X" "XCorp" scenarioT1
      ((melt "ID_X" "XCorp" scenarioT1).getD 0
        (mkMeltRow "" "" "" "" "" (Dec10.ofInt 1, "") "" "")) (by decide)
    rw [h]
    decide
  · intro hne heq
    exact hne (rowId_determinism_and_seed_uniqueness.2.2 "E" "A" "2023" "T1" "5.0"
      "E" "B" "2023" "T1" "5.0" (by decide) (by decide) (by decide) (by decide) (by decide)
      (by decide) (by decide) (by decide) (by decide) (by decide) heq).2.1

/-! ### Helper lemmas: cancellation in names and seeds -/

lemma string_append_right_cancel {a b s : String} (h : a ++ s = b ++ s) : a = b := by
  have hd : a.data ++ s.data = b.data ++ s.data := by
    rw [← String.data_append, ← String.data_append, h]
  exact congrArg String.mk (List.append_cancel_right hd)

/-- Two seeds that agree in entity, period, block and value but come from
different metric names are different (no side condition needed: the
differing component has identical context on both sides). -/
lemma rowIdSeed_metric_cancel {e p bid v m1 m2 : String}
    (h : rowIdSeed e m1 p bid v = rowIdSeed e m2 p bid v) : m1 = m2 := by
  have hd := congrArg String.data h
  simp only [rowIdSeed, String.data_append, List.append_assoc] at hd
  have hd2 := List.append_cancel_left hd
  have hd3 := List.append_cancel_left hd2
  have hd4 := List.append_cancel_right hd3
  exact congrArg String.mk hd4

lemma pyStrip_append_sep {a leaf : String}
    (ha : a.data ≠ []) (hl : leaf.data ≠ [])
    (hha : ∀ c, a.data.head? = some c → isPySpace c = false)
    (hll : ∀ c, leaf.data.getLast? = some c → isPySpace c = false) :
    pyStrip (a ++ " > " ++ leaf) = a ++ " > " ++ leaf := by
  apply pyStrip_eq_self
  · intro c hc
    have hd : (a ++ " > " ++ leaf).data = a.data ++ (" > ".data ++ leaf.data) := by
      rw [String.data_append, String.data_append, List.append_assoc]
    rw [hd, List.head?_append_of_ne_nil _ ha] at hc
    exact hha c hc
  · intro c hc
    have hd : (a ++ " > " ++ leaf).data = (a.data ++ " > ".data) ++ leaf.data := by
      rw [String.data_append, String.data_append]
    rw [hd, List.getLast?_append_of_ne_nil _ hl] at hc
    exact hll c hc

lemma paren_not_mem_sep : '(' ∉ (" > " : String).data := by decide

/-- Different parent labels (paren-free, strip-stable at the relevant ends)
give different cleaned metric names for the same leaf. -/
lemma cleanName_parent_inj {a b leaf : String}
    (hab : a ≠ b)
    (ha : a.data ≠ []) (hb : b.data ≠ []) (hl : leaf.data ≠ [])
    (hha : ∀ c, a.data.head? = some c → isPySpace c = false)
    (hhb : ∀ c, b.data.head? = some c → isPySpace c = false)
    (hll : ∀ c, leaf.data.getLast? = some c → isPySpace c = false)
    (hpa : '(' ∉ a.data) (hpb : '(' ∉ b.data) (hpl : '(' ∉ leaf.data) :
    pyStrip (stripFootnotes (joinSep " > " [a, leaf])) ≠
      pyStrip (stripFootnotes (joinSep " > " [b, leaf])) := by
  have hja : joinSep " > " [a, leaf] = a ++ " > " ++ leaf := rfl
  have hjb : joinSep " > " [b, leaf] = b ++ " > " ++ leaf := rfl
  have hfa : '(' ∉ (a ++ " > " ++ leaf).data := by
    rw [String.data_append, String.data_append]
    intro hmem
    rcases List.mem_append.mp hmem with h | h
    · rcases List.mem_append.mp h with h | h
      · exact hpa h
      · exact paren_not_mem_sep h
    · exact hpl h
  have hfb : '(' ∉ (b ++ " > " ++ leaf).data := by
    rw [String.data_append, String.data_append]
    intro hmem
    rcases List.mem_append.mp hmem with h | h
    · rcases List.mem_append.mp h with h | h
      · exact hpb h
      · exact paren_not_mem_sep h
    · exact hpl h
  rw [hja, hjb, stripFootnotes_no_paren hfa, stripFootnotes_no_paren hfb,
    pyStrip_append_sep ha hl hha hll, pyStrip_append_sep hb hl hhb hll]
  intro h
  exact hab (string_append_right_cancel (string_append_right_cancel h))

/-! ### Claim C5 — hierarchical disambiguation -/

/-- The counterexample table: leaf `Cash` under parents `A (1)` and `A`
(ancestor chains `["A (1)"]` vs `["A"]`). -/
def hierCollisionBlock : DocBlock :=
  { id := "B3"
    blockType := BlockType.table
    sectionPath := ["Balance Sheet"]
    content := "| Item | 2023 |\n| --- | --- |\n| A (1) |  |\n| &nbsp;&nbsp;Cash | 5 |\n| A |  |\n| &nbsp;&nbsp;Cash | 5 |" }

/-- C5 (counterexample): the table of `hierCollisionBlock` contains two
distinct `Cash` data rows under different ancestor chains (`["A (1)"]` and
`["A"]`), yet `melt` emits both (rows 1 and 3) with the *same*
`metric_name` `"A > Cash"` and the same `row_id`: the footnote stripping of
`metric_clean` (`synthesis.py:150`) erases the `(1)` marker that separated
the chains, so different ancestor chains do not always give different
metric names or row ids. -/
theorem hierarchy_collision_cex :
    ((melt "E" "Ent" hierCollisionBlock).get? 1).map UFLRow.metric_name = some "A > Cash" ∧
    ((melt "E" "Ent" hierCollisionBlock).get? 3).map UFLRow.metric_name = some "A > Cash" ∧
    ((melt "E" "Ent" hierCollisionBlock).get? 1).map UFLRow.row_id =
      ((melt "E" "Ent" hierCollisionBlock).get? 3).map UFLRow.row_id ∧
    (melt "E" "Ent" hierCollisionBlock).length = 4 := by
  decide

/-- The positive table: leaf `Cash` under the plain parents `Assets` and
`Liabilities`. -/
def hierPosBlock : DocBlock :=
  { id := "B4"
    blockType := BlockType.table
    sectionPath := ["Balance Sheet"]
    content := "| Item | 2023 |\n| --- | --- |\n| Assets |  |\n| &nbsp;&nbsp;Cash | 5 |\n| Liabilities |  |\n| &nbsp;&nbsp;Cash | 6 |" }

/-- C5 (amended): labels are rewritten `parent₁ > … > leaf` before parsing,
and (i) in `hierPosBlock` the two `Cash` rows come out as `"Assets > Cash"`
vs `"Liabilities > Cash"` with different `row_id`s; (ii) in general,
different (paren-free, strip-stable) parent labels joined with the same
leaf give different cleaned metric names; and (iii) rows of the same
entity/period/block/value with different metric names always receive
different row ids.  The qualification is necessary: footnote markers inside
a parent label are erased by the cleaning pass (see the counterexample). -/
theorem hierarchical_disambiguation_qualified :
    (((melt "E" "Ent" hierPosBlock).get? 1).map UFLRow.metric_name = some "Assets > Cash" ∧
     ((melt "E" "Ent" hierPosBlock).get? 3).map UFLRow.metric_name = some "Liabilities > Cash" ∧
     ((melt "E" "Ent" hierPosBlock).get? 1).map UFLRow.row_id ≠
       ((melt "E" "Ent" hierPosBlock).get? 3).map UFLRow.row_id) ∧
    (∀ a b leaf : String, a ≠ b →
      a.data ≠ [] → b.data ≠ [] → leaf.data ≠ [] →
      (∀ c, a.data.head? = some c → isPySpace c = false) →
      (∀ c, b.data.head? = some c → isPySpace c = false) →
      (∀ c, leaf.data.getLast? = some c → isPySpace c = false) →
      '(' ∉ a.data → '(' ∉ b.data → '(' ∉ leaf.data →
      pyStrip (stripFootnotes (joinSep " > " [a, leaf])) ≠
        pyStrip (stripFootnotes (joinSep " > " [b, leaf]))) ∧
    (∀ e p bid v m1 m2 : String, m1 ≠ m2 →
      md5Hex (rowIdSeed e m1 p bid v) ≠ md5Hex (rowIdSeed e m2 p bid v)) := by
  refine ⟨⟨by decide, by decide, by decide⟩, ?_, ?_⟩
  · intro a b leaf hab ha hb hl hha hhb hll hpa hpb hpl
    exact cleanName_parent_inj hab ha hb hl hha hhb hll hpa hpb hpl
  · intro e p bid v m1 m2 hne heq
    exact hne (rowIdSeed_metric_cancel heq)

theorem hierarchical_disambiguation_witness :
    ("Assets" ≠ "Liabilities" →
      pyStrip (stripFootnotes (joinSep " > " ["Assets", "Cash"])) ≠
        pyStrip (stripFootnotes (joinSep " > " ["Liabilities", "Cash"]))) ∧
    ("Assets > Cash" ≠ "Liabilities > Cash" →
      md5Hex (rowIdSeed "E" "Assets > Cash" "2023" "B4" "5.0") ≠
        md5Hex (rowIdSeed "E" "Liabilities > Cash" "2023" "B4" "5.0")) := by
  constructor
  · intro hne
    exact hierarchical_disambiguation_qualified.2.1 "Assets" "Liabilities" "Cash" hne
      (by decide) (by decide) (by decide) (by decide) (by decide) (by decide)
      (by decide) (by decide) (by decide)
  · intro hne
    exact hierarchical_disambiguation_qualified.2.2 "E" "2023" "B4" "5.0"
      "Assets > Cash" "Liabilities > Cash" hne

/-! ### Helper lemmas: insertion-ordered id maps -/

/-- `ys` extends `xs` on the right: the additivity invariant of the
retriever's id-keyed dicts (earlier keys keep their positions). -/
def keysExt (xs ys : List String) : Prop := ∃ t, ys = xs ++ t

lemma keysExt_refl (xs : List String) : keysExt xs xs := ⟨[], by simp⟩

lemma keysExt_trans {xs ys zs : List String} (h1 : keysExt xs ys) (h2 : keysExt ys zs) :
    keysExt xs zs := by
  obtain ⟨t1, rfl⟩ := h1
  obtain ⟨t2, rfl⟩ := h2
  exact ⟨t1 ++ t2, by simp⟩

lemma keysExt_mem {xs ys : List String} {a : String} (h : keysExt xs ys) (ha : a ∈ xs) :
    a ∈ ys := by
  obtain ⟨t, rfl⟩ := h
  exact List.mem_append_left t ha

lemma alKeys_append {α : Type} (m₁ m₂ : List (String × α)) :
    alKeys (m₁ ++ m₂) = alKeys m₁ ++ alKeys m₂ := List.map_append _ m₁ m₂

lemma alKeys_insertOver_ext {α : Type} (k : String) (v : α) :
    ∀ m : List (String × α), keysExt (alKeys m) (alKeys (alInsertOver k v m)) := by
  intro m
  induction m with
  | nil => exact ⟨[k], rfl⟩
  | cons p t ih =>
    by_cases h : p.1 = k
    · refine ⟨[], ?_⟩
      show alKeys (alInsertOver k v (p :: t)) = alKeys (p :: t) ++ []
      cases p with
      | mk k' v' =>
        simp only at h
        simp [alInsertOver, if_pos h, alKeys, h]
    · obtain ⟨t0, ht0⟩ := ih
      refine ⟨t0, ?_⟩
      cases p with
      | mk k' v' =>
        simp only at h
        simp only [alInsertOver, if_neg h, alKeys, List.map_cons]
        rw [show alKeys (alInsertOver k v t) = List.map Prod.fst (alInsertOver k v t) from rfl] at ht0
        rw [ht0]
        rfl

lemma alKeys_insertIfAbsent_ext {α : Type} (k : String) (v : α) (m : List (String × α)) :
    keysExt (alKeys m) (alKeys (alInsertIfAbsent k v m)) := by
  unfold alInsertIfAbsent
  split
  · exact keysExt_refl _
  · exact ⟨[k], by rw [alKeys_append]; rfl⟩

lemma foldl_keysExt {α β : Type} {step : List (String × α) → β → List (String × α)}
    (hstep : ∀ m x, keysExt (alKeys m) (alKeys (step m x))) :
    ∀ (xs : List β) (m : List (String × α)), keysExt (alKeys m) (alKeys (xs.foldl step m)) := by
  intro xs
  induction xs with
  | nil => intro m; exact keysExt_refl _
  | cons x t ih => intro m; exact keysExt_trans (hstep m x) (ih (step m x))

lemma mem_alKeys_insertOver_self {α : Type} (k : String) (v : α) :
    ∀ m : List (String × α), k ∈ alKeys (alInsertOver k v m) := by
  intro m
  induction m with
  | nil => exact List.mem_singleton.mpr rfl
  | cons p t ih =>
    cases p with
    | mk k' v' =>
      by_cases h : k' = k
      · simp [alInsertOver, if_pos h, alKeys]
      · simp only [alInsertOver, if_neg h, alKeys, List.map_cons, List.mem_cons]
        exact Or.inr ih

lemma mem_alKeys_alOfList {α : Type} {key : α → String} :
    ∀ (xs : List α) (m : List (String × α)) (x : α), x ∈ xs →
      key x ∈ alKeys (xs.foldl (fun m x => alInsertOver (key x) x m) m) := by
  intro xs
  induction xs with
  | nil => intro m x hx; exact absurd hx (List.not_mem_nil x)
  | cons y t ih =>
    intro m x hx
    rcases List.mem_cons.mp hx with rfl | hx
    · by_cases hxt : x ∈ t
      · exact ih _ x hxt
      · exact keysExt_mem
          (foldl_keysExt (fun m' z => alKeys_insertOver_ext (key z) z m') t _)
          (mem_alKeys_insertOver_self (key x) x m)
    · exact ih _ x hx

lemma mem_alKeys_ofList {α : Type} {key : α → String} {xs : List α} {x : α} (hx : x ∈ xs) :
    key x ∈ alKeys (alOfList key xs) :=
  mem_alKeys_alOfList xs [] x hx

/-! ### Helper lemmas: the retriever phases are additive -/

lemma chunkMapA_keysExt (env : RetrieverEnv) (plan : RetrievalPlan) (k : Nat) :
    keysExt (alKeys (chunkMap1 env plan k)) (alKeys (chunkMapA env plan k)) := by
  unfold chunkMapA
  refine foldl_keysExt (fun m (ent : String) => ?_) _ _
  exact foldl_keysExt (fun m' (ec : DocBlock) => alKeys_insertIfAbsent_ext ec.id ec m') _ m

lemma chunkMapB_keysExt (env : RetrieverEnv) (plan : RetrievalPlan) (k : Nat) (ic : Bool) :
    keysExt (alKeys (chunkMapA env plan k)) (alKeys (chunkMapB env plan k ic)) := by
  unfold chunkMapB
  split
  · refine foldl_keysExt (fun m (cid : String) => ?_) _ _
    cases env.fetchByIds [cid] with
    | nil => exact keysExt_refl _
    | cons c cs => exact alKeys_insertOver_ext cid c m
  · exact keysExt_refl _

lemma rowMapC_keysExt (env : RetrieverEnv) (plan : RetrievalPlan) (k : Nat) (ic ir : Bool) :
    keysExt (alKeys (rowMap2 env plan)) (alKeys (rowMapC env plan k ic ir)) := by
  unfold rowMapC
  split
  · exact foldl_keysExt (fun m (r : UFLRow) => alKeys_insertIfAbsent_ext r.row_id r m) _ _
  · exact keysExt_refl _

/-- Every row found by the direct ledger query keeps its id in the final
row map. -/
lemma phase2_row_in_final {env : RetrieverEnv} {plan : RetrievalPlan} {k : Nat}
    {ic ir : Bool} {r : UFLRow} (hr : r ∈ phase2Rows env plan) :
    r.row_id ∈ alKeys (rowMapC env plan k ic ir) :=
  keysExt_mem (rowMapC_keysExt env plan k ic ir) (mem_alKeys_ofList hr)

/-- Every block found by the similarity/keyword phases keeps its id in the
final chunk map. -/
lemma phase1b_chunk_in_final {env : RetrieverEnv} {plan : RetrievalPlan} {k : Nat}
    {ic : Bool} {c : DocBlock} (hc : c ∈ phase1bChunks env plan k) :
    c.id ∈ alKeys (chunkMapB env plan k ic) :=
  keysExt_mem (keysExt_trans (chunkMapA_keysExt env plan k) (chunkMapB_keysExt env plan k ic))
    (mem_alKeys_ofList hc)

/-! ### Claim C7 — retriever additivity -/

/-- C7: for every retrieval environment, plan, `k` and expansion flags, the
phases are additive over the running id-keyed maps: the key list of each
earlier map is a left factor of (keeps its positions in) every later map's
key list; every chunk from the similarity/keyword phases and every row from
the direct ledger query is still present under its id in the final maps;
and the returned lists are exactly the final maps' value lists, in map
insertion order — nothing is evicted or re-sorted. -/
theorem retriever_additivity :
    ∀ (env : RetrieverEnv) (plan : RetrievalPlan) (k : Nat) (ic ir : Bool),
      keysExt (alKeys (chunkMap1 env plan k)) (alKeys (chunkMapA env plan k)) ∧
      keysExt (alKeys (chunkMapA env plan k)) (alKeys (chunkMapB env plan k ic)) ∧
      keysExt (alKeys (rowMap2 env plan)) (alKeys (rowMapC env plan k ic ir)) ∧
      (∀ c ∈ phase1bChunks env plan k, c.id ∈ alKeys (chunkMapB env plan k ic)) ∧
      (∀ r ∈ phase2Rows env plan, r.row_id ∈ alKeys (rowMapC env plan k ic ir)) ∧
      (retrieve env plan k ic ir).text_chunks = alValues (chunkMapB env plan k ic) ∧
      (retrieve env plan k ic ir).ufl_rows = alValues (rowMapC env plan k ic ir) := by
  intro env plan k ic ir
  exact ⟨chunkMapA_keysExt env plan k, chunkMapB_keysExt env plan k ic,
    rowMapC_keysExt env plan k ic ir,
    fun c hc => phase1b_chunk_in_final hc,
    fun r hr => phase2_row_in_final hr,
    rfl, rfl⟩

/-- A concrete witness environment: one ledger row, a vector store answering
the hypothesis with one block, an empty fetch. -/
def witRow : UFLRow :=
  { row_id := "r1", entity_id := "ID_TDG", entity_name_raw := "TransDigm",
    metric_name := "Net Sales", value := some (.val (Dec10.ofInt 100)), unit := "USD",
    scale_factor := Dec10.ofInt 1, period := "2023", doc_section := "Financials",
    source_chunk_id := "c1", nuance_note := none, confidence := Dec10.ofInt 1 }

def witBlock : DocBlock :=
  { id := "c3", blockType := .text, sectionPath := ["MD&A"], content := "net sales text" }

def witEnv : RetrieverEnv :=
  { df := [witRow]
    vectorQuery := fun q _ => if q = "hypo" then [witBlock] else []
    fetchByIds := fun _ => [] }

def witPlan : RetrievalPlan :=
  { strategy := "HYBRID", ufl_query := some {}, vector_hypothesis := "hypo",
    vector_keywords := [], reasoning := "t" }

theorem retriever_additivity_witness :
    witBlock ∈ phase1bChunks witEnv witPlan 4 ∧
    witBlock.id ∈ alKeys (chunkMapB witEnv witPlan 4 true) ∧
    witRow ∈ phase2Rows witEnv witPlan ∧
    witRow.row_id ∈ alKeys (rowMapC witEnv witPlan 4 true true) := by
  refine ⟨by decide, ?_, by decide, ?_⟩
  · exact (retriever_additivity witEnv witPlan 4 true true).2.2.2.1 witBlock (by decide)
  · exact (retriever_additivity witEnv witPlan 4 true true).2.2.2.2.1 witRow (by decide)

/-! ### Claim C8 — string-value preservation in the Text Fact Normalizer -/

/-- C8: for every accepted scraped fact whose raw value is a string, the
normalizer first attempts a float parse of the string with thousands
separators stripped; on failure the row's value is `None` and the original
string is preserved in the nuance note — appended as `" (Raw Value: …)"`
when a (truthy) nuance already existed, used verbatim otherwise; on success
the parsed float is stored and the nuance is untouched.  Nothing is
silently dropped. -/
theorem string_value_preservation :
    ∀ (e nm : String) (b : DocBlock) (f : ScrapedFact) (s : String),
      f.value = some (Sum.inr s) →
      Dec10.blt f.confidence CONFIDENCE_TEXT_LOW = false →
      (pyFloatOfString (pyStrip (pyReplace s "," "")) = none →
        ∃ r, normalizeFact e nm b f = some r ∧ r.value = none ∧
          r.nuance_note = (if pyTruthyStr f.nuance_note then
            some ((f.nuance_note.getD "") ++ " (Raw Value: " ++ s ++ ")")
          else some s)) ∧
      (∀ q, pyFloatOfString (pyStrip (pyReplace s "," "")) = some q →
        ∃ r, normalizeFact e nm b f = some r ∧ r.value = some q ∧
          r.nuance_note = f.nuance_note) := by
  intro e nm b f s hval hconf
  constructor
  · intro hparse
    have hfv : factValueNuance f =
        (none, if pyTruthyStr f.nuance_note then
          some ((f.nuance_note.getD "") ++ " (Raw Value: " ++ s ++ ")") else some s) := by
      unfold factValueNuance
      rw [hval]
      dsimp only
      rw [hparse]
    refine ⟨normalizeFactRow e nm b f, by simp [normalizeFact, hconf], ?_, ?_⟩
    · show (factValueNuance f).1 = none
      rw [hfv]
    · show (factValueNuance f).2 = _
      rw [hfv]
  · intro q hparse
    have hfv : factValueNuance f = (some q, f.nuance_note) := by
      unfold factValueNuance
      rw [hval]
      dsimp only
      rw [hparse]
    refine ⟨normalizeFactRow e nm b f, by simp [normalizeFact, hconf], ?_, ?_⟩
    · show (factValueNuance f).1 = some q
      rw [hfv]
    · show (factValueNuance f).2 = f.nuance_note
      rw [hfv]

def witTextBlock : DocBlock :=
  { id := "t1", blockType := .text, sectionPath := ["MD&A"],
    content := "The backlog was approximately five billion dollars." }

def witFact : ScrapedFact :=
  { metric_name := "Backlog", value := some (Sum.inr "approx. 5bn"),
    unit := "USD", period := some "2023", related_entity := none,
    nuance_note := some "estimate", confidence := Dec10.canon 9 (-1) }

theorem string_value_preservation_witness :
    witFact.value = some (Sum.inr "approx. 5bn") ∧
    (normalizeFact "E" "N" witTextBlock witFact).map UFLRow.value = some none ∧
    (normalizeFact "E" "N" witTextBlock witFact).map UFLRow.nuance_note =
      some (some "estimate (Raw Value: approx. 5bn)") := by
  obtain ⟨r, hr, hv, hn⟩ :=
    ((string_value_preservation "E" "N" witTextBlock witFact "approx. 5bn" rfl
      (by decide)).1 (by decide))
  refine ⟨rfl, ?_, ?_⟩
  · rw [hr]
    simp only [Option.map_some']
    rw [hv]
  · rw [hr]
    simp only [Option.map_some']
    rw [hn]
    decide

/-! ### Claim C10 — a present-but-empty ledger filter selects everything -/

lemma queryUfl_empty_filter (df : List UFLRow) (f : UFLFilter)
    (h1 : pyTruthyList f.entity_ids = false) (h2 : pyTruthyList f.years = false)
    (h3 : pyTruthyList f.metric_keywords = false) :
    queryUfl df f = df := by
  unfold queryUfl
  split
  · next h => exact (List.isEmpty_iff.mp h).symm
  · simp [h1, h2, h3]

/-- C10: a present filter whose `entity_ids`, `years` and `metric_keywords`
are all empty or `None` leaves the selection mask all-true — the direct
ledger query returns every row of the ledger — and a retrieval plan that
carries such a filter therefore pulls every ledger row (under its id) into
the final candidate row map. -/
theorem empty_filter_selects_all :
    (∀ (df : List UFLRow) (f : UFLFilter),
        pyTruthyList f.entity_ids = false → pyTruthyList f.years = false →
        pyTruthyList f.metric_keywords = false → queryUfl df f = df) ∧
    (∀ (env : RetrieverEnv) (plan : RetrievalPlan) (k : Nat) (ic ir : Bool) (f : UFLFilter),
        plan.ufl_query = some f →
        pyTruthyList f.entity_ids = false → pyTruthyList f.years = false →
        pyTruthyList f.metric_keywords = false →
        ∀ r ∈ env.df, r.row_id ∈ alKeys (rowMapC env plan k ic ir)) := by
  refine ⟨queryUfl_empty_filter, ?_⟩
  intro env plan k ic ir f hq h1 h2 h3 r hr
  have hmem : r ∈ phase2Rows env plan := by
    unfold phase2Rows
    rw [hq]
    dsimp only
    rw [queryUfl_empty_filter env.df f h1 h2 h3]
    exact hr
  exact phase2_row_in_final hmem

theorem empty_filter_selects_all_witness :
    queryUfl [witRow] ({} : UFLFilter) = [witRow] ∧
    witPlan.ufl_query = some ({} : UFLFilter) ∧
    witRow.row_id ∈ alKeys (rowMapC witEnv witPlan 4 true true) := by
  refine ⟨?_, rfl, ?_⟩
  · exact empty_filter_selects_all.1 [witRow] {} (by decide) (by decide) (by decide)
  · exact empty_filter_selects_all.2 witEnv witPlan 4 true true {} rfl
      (by decide) (by decide) (by decide) witRow (by decide)

end Venra
